import Mathlib

set_option maxHeartbeats 1000000

/-!
Shallow embedding of the `termcolor-json` library (`src/lib.rs`).

The library wraps a plain JSON `Formatter` (the serde_json engine) in a
`ColorFormatter` that emits terminal color-control sequences around JSON
tokens.  We model the output stream as a trace of `OutItem`s: raw text bytes
(`text`), a `set_color` call with a `ColorSpec` (`ctrl`), and the stream's
dedicated `reset` operation (`resetOp`, never used by the library).  The
underlying plain-JSON engine is modelled abstractly as a record `Fmt σ` of
callbacks from engine state to (new state, emitted bytes); concrete models of
serde_json's compact and pretty formatters are given below.
-/

section Defs

variable {σ : Type} {ε : Type}

/-- Modelled from the spec: the collaborator `termcolor`'s color palette,
restricted to the colors this library's default theme uses. -/
inductive TColor where
  | cyan
  | green
  | blue
deriving DecidableEq, Repr

/-- Modelled from the spec: an abstract, comparable style descriptor
(`termcolor::ColorSpec`) with a distinguished empty state, restricted to the
fields this library sets (foreground, bold, intense). -/
structure ColorSpec where
  fg : Option TColor := none
  bold : Bool := false
  intense : Bool := false
deriving DecidableEq, Repr

/-- Source `ColorSpec::new()`: the empty specification. -/
def ColorSpec.new : ColorSpec := {}

/-- Source `ColorSpec::is_none()`: true when no styling is set. -/
def ColorSpec.is_none (c : ColorSpec) : Bool :=
  c.fg.isNone && !c.bold && !c.intense

/-- Source `ColorSpec::set_fg`. -/
def ColorSpec.set_fg (c : ColorSpec) (fg : Option TColor) : ColorSpec :=
  { c with fg := fg }

/-- Source `ColorSpec::set_bold`. -/
def ColorSpec.set_bold (c : ColorSpec) (b : Bool) : ColorSpec :=
  { c with bold := b }

/-- Source `ColorSpec::set_intense`. -/
def ColorSpec.set_intense (c : ColorSpec) (b : Bool) : ColorSpec :=
  { c with intense := b }

/-- The `Theme` struct: one spec per token category plus the reset spec. -/
structure Theme where
  reset : ColorSpec
  null : ColorSpec
  bool : ColorSpec
  number : ColorSpec
  string : ColorSpec
  object_key : ColorSpec
deriving DecidableEq, Repr

/-- Source `Theme::new(default)`: every category, and the reset spec, set to the
given spec. -/
def Theme.new (default : ColorSpec) : Theme :=
  { reset := default, null := default, bool := default, number := default,
    string := default, object_key := default }

/-- Source `Theme::none()`: a theme with no styling. -/
def Theme.none : Theme := Theme.new ColorSpec.new

/-- Source `Theme::default()`: null/bool cyan+bold, number cyan, string green,
object key blue+intense. -/
def Theme.default : Theme :=
  let theme := Theme.none
  let theme := { theme with null := (theme.null.set_fg (some TColor.cyan)).set_bold true }
  let theme := { theme with bool := (theme.bool.set_fg (some TColor.cyan)).set_bold true }
  let theme := { theme with number := theme.number.set_fg (some TColor.cyan) }
  let theme := { theme with string := theme.string.set_fg (some TColor.green) }
  let theme := { theme with object_key := (theme.object_key.set_fg (some TColor.blue)).set_intense true }
  theme

/-- Modelled from the spec: serde_json's `CharEscape` payload, which the
color formatter never inspects. -/
inductive CharEscape where
  | quote
  | reverseSolidus
  | solidus
  | backspace
  | formFeed
  | lineFeed
  | carriageReturn
  | tab
  | asciiControl (byte : Nat)
deriving DecidableEq, Repr

/-- One token-emission callback invocation of the serde_json `Formatter`
interface, with its payload. -/
inductive Event where
  | writeNull
  | writeBool (value : Bool)
  | writeI8 (value : Int)
  | writeI16 (value : Int)
  | writeI32 (value : Int)
  | writeI64 (value : Int)
  | writeU8 (value : Nat)
  | writeU16 (value : Nat)
  | writeU32 (value : Nat)
  | writeU64 (value : Nat)
  | writeF32 (value : String)
  | writeF64 (value : String)
  | writeNumberStr (value : String)
  | beginString
  | endString
  | writeStringFragment (fragment : String)
  | writeCharEscape (escape : CharEscape)
  | beginArray
  | endArray
  | beginArrayValue (first : Bool)
  | endArrayValue
  | beginObject
  | endObject
  | beginObjectKey (first : Bool)
  | endObjectKey
  | beginObjectValue
  | endObjectValue
  | writeRawFragment (fragment : String)
deriving DecidableEq, Repr

/-- One operation observed on the shared output stream: raw bytes, a
`set_color` call, or the stream's dedicated `reset` operation. -/
inductive OutItem where
  | text (bytes : String)
  | ctrl (spec : ColorSpec)
  | resetOp
deriving DecidableEq, Repr

/-- Modelled from the spec: the plain-JSON engine's callback surface
(serde_json `Formatter`), as state-passing functions returning the bytes each
callback writes to the stream. -/
structure Fmt (σ : Type) where
  write_null : σ → σ × String
  write_bool : σ → Bool → σ × String
  write_i8 : σ → Int → σ × String
  write_i16 : σ → Int → σ × String
  write_i32 : σ → Int → σ × String
  write_i64 : σ → Int → σ × String
  write_u8 : σ → Nat → σ × String
  write_u16 : σ → Nat → σ × String
  write_u32 : σ → Nat → σ × String
  write_u64 : σ → Nat → σ × String
  write_f32 : σ → String → σ × String
  write_f64 : σ → String → σ × String
  write_number_str : σ → String → σ × String
  begin_string : σ → σ × String
  end_string : σ → σ × String
  write_string_fragment : σ → String → σ × String
  write_char_escape : σ → CharEscape → σ × String
  begin_array : σ → σ × String
  end_array : σ → σ × String
  begin_array_value : σ → Bool → σ × String
  end_array_value : σ → σ × String
  begin_object : σ → σ × String
  end_object : σ → σ × String
  begin_object_key : σ → Bool → σ × String
  end_object_key : σ → σ × String
  begin_object_value : σ → σ × String
  end_object_value : σ → σ × String
  write_raw_fragment : σ → String → σ × String

/-- Dispatch one event to the corresponding plain-engine callback. -/
def plainStep (f : Fmt σ) (s : σ) : Event → σ × String
  | Event.writeNull => f.write_null s
  | Event.writeBool v => f.write_bool s v
  | Event.writeI8 v => f.write_i8 s v
  | Event.writeI16 v => f.write_i16 s v
  | Event.writeI32 v => f.write_i32 s v
  | Event.writeI64 v => f.write_i64 s v
  | Event.writeU8 v => f.write_u8 s v
  | Event.writeU16 v => f.write_u16 s v
  | Event.writeU32 v => f.write_u32 s v
  | Event.writeU64 v => f.write_u64 s v
  | Event.writeF32 v => f.write_f32 s v
  | Event.writeF64 v => f.write_f64 s v
  | Event.writeNumberStr v => f.write_number_str s v
  | Event.beginString => f.begin_string s
  | Event.endString => f.end_string s
  | Event.writeStringFragment frag => f.write_string_fragment s frag
  | Event.writeCharEscape esc => f.write_char_escape s esc
  | Event.beginArray => f.begin_array s
  | Event.endArray => f.end_array s
  | Event.beginArrayValue first => f.begin_array_value s first
  | Event.endArrayValue => f.end_array_value s
  | Event.beginObject => f.begin_object s
  | Event.endObject => f.end_object s
  | Event.beginObjectKey first => f.begin_object_key s first
  | Event.endObjectKey => f.end_object_key s
  | Event.beginObjectValue => f.begin_object_value s
  | Event.endObjectValue => f.end_object_value s
  | Event.writeRawFragment frag => f.write_raw_fragment s frag

/-- The plain (no-color) serialization path: each callback writes its bytes
to the stream directly. -/
def plainRun (f : Fmt σ) : σ → List Event → σ × List OutItem
  | s, [] => (s, [])
  | s, e :: es =>
    ((plainRun f (plainStep f s e).1 es).1,
     OutItem.text (plainStep f s e).2 :: (plainRun f (plainStep f s e).1 es).2)

/-- The mutable state of a `ColorFormatter`: the wrapped engine's state plus
the `writing_key` and `need_reset` flags. -/
structure CFState (σ : Type) where
  fstate : σ
  writing_key : Bool
  need_reset : Bool
deriving Repr, DecidableEq

/-- Source `ColorFormatter::new`: both flags start false. -/
def ColorFormatter.new (s0 : σ) : CFState σ :=
  { fstate := s0, writing_key := false, need_reset := false }

/-- Free function `set_color`: if the spec is empty, emit nothing and return
false; otherwise call the stream's `set_color` and return true. -/
def set_color (color : ColorSpec) : List OutItem × Bool :=
  if color.is_none then ([], false)
  else ([OutItem.ctrl color], true)

/-- Free function `reset`: send the theme's reset spec through the stream's
`set_color`. -/
def reset (theme : Theme) : List OutItem :=
  [OutItem.ctrl theme.reset]

/-- Free function `with_color`: if `set_color` applied a color, run the write
and then reset; otherwise just run the write. -/
def with_color (color : ColorSpec) (theme : Theme) (s : σ) (write : σ → σ × String) :
    σ × List OutItem :=
  if (set_color color).2 then
    ((write s).1, (set_color color).1 ++ [OutItem.text (write s).2] ++ reset theme)
  else
    ((write s).1, [OutItem.text (write s).2])

/-- Source `ColorFormatter::write_null`. -/
def ColorFormatter.write_null (f : Fmt σ) (theme : Theme) (st : CFState σ) :
    CFState σ × List OutItem :=
  ({ st with fstate := (with_color theme.null theme st.fstate f.write_null).1 },
   (with_color theme.null theme st.fstate f.write_null).2)

/-- Source `ColorFormatter::write_bool`. -/
def ColorFormatter.write_bool (f : Fmt σ) (theme : Theme) (st : CFState σ) (value : Bool) :
    CFState σ × List OutItem :=
  ({ st with fstate := (with_color theme.bool theme st.fstate (fun s => f.write_bool s value)).1 },
   (with_color theme.bool theme st.fstate (fun s => f.write_bool s value)).2)

/-- Source `ColorFormatter::write_i8`. -/
def ColorFormatter.write_i8 (f : Fmt σ) (theme : Theme) (st : CFState σ) (value : Int) :
    CFState σ × List OutItem :=
  ({ st with fstate := (with_color theme.number theme st.fstate (fun s => f.write_i8 s value)).1 },
   (with_color theme.number theme st.fstate (fun s => f.write_i8 s value)).2)

/-- Source `ColorFormatter::write_i16`. -/
def ColorFormatter.write_i16 (f : Fmt σ) (theme : Theme) (st : CFState σ) (value : Int) :
    CFState σ × List OutItem :=
  ({ st with fstate := (with_color theme.number theme st.fstate (fun s => f.write_i16 s value)).1 },
   (with_color theme.number theme st.fstate (fun s => f.write_i16 s value)).2)

/-- Source `ColorFormatter::write_i32`. -/
def ColorFormatter.write_i32 (f : Fmt σ) (theme : Theme) (st : CFState σ) (value : Int) :
    CFState σ × List OutItem :=
  ({ st with fstate := (with_color theme.number theme st.fstate (fun s => f.write_i32 s value)).1 },
   (with_color theme.number theme st.fstate (fun s => f.write_i32 s value)).2)

/-- Source `ColorFormatter::write_i64`. -/
def ColorFormatter.write_i64 (f : Fmt σ) (theme : Theme) (st : CFState σ) (value : Int) :
    CFState σ × List OutItem :=
  ({ st with fstate := (with_color theme.number theme st.fstate (fun s => f.write_i64 s value)).1 },
   (with_color theme.number theme st.fstate (fun s => f.write_i64 s value)).2)

/-- Source `ColorFormatter::write_u8`. -/
def ColorFormatter.write_u8 (f : Fmt σ) (theme : Theme) (st : CFState σ) (value : Nat) :
    CFState σ × List OutItem :=
  ({ st with fstate := (with_color theme.number theme st.fstate (fun s => f.write_u8 s value)).1 },
   (with_color theme.number theme st.fstate (fun s => f.write_u8 s value)).2)

/-- Source `ColorFormatter::write_u16`. -/
def ColorFormatter.write_u16 (f : Fmt σ) (theme : Theme) (st : CFState σ) (value : Nat) :
    CFState σ × List OutItem :=
  ({ st with fstate := (with_color theme.number theme st.fstate (fun s => f.write_u16 s value)).1 },
   (with_color theme.number theme st.fstate (fun s => f.write_u16 s value)).2)

/-- Source `ColorFormatter::write_u32`. -/
def ColorFormatter.write_u32 (f : Fmt σ) (theme : Theme) (st : CFState σ) (value : Nat) :
    CFState σ × List OutItem :=
  ({ st with fstate := (with_color theme.number theme st.fstate (fun s => f.write_u32 s value)).1 },
   (with_color theme.number theme st.fstate (fun s => f.write_u32 s value)).2)

/-- Source `ColorFormatter::write_u64`. -/
def ColorFormatter.write_u64 (f : Fmt σ) (theme : Theme) (st : CFState σ) (value : Nat) :
    CFState σ × List OutItem :=
  ({ st with fstate := (with_color theme.number theme st.fstate (fun s => f.write_u64 s value)).1 },
   (with_color theme.number theme st.fstate (fun s => f.write_u64 s value)).2)

/-- Source `ColorFormatter::write_f32`. -/
def ColorFormatter.write_f32 (f : Fmt σ) (theme : Theme) (st : CFState σ) (value : String) :
    CFState σ × List OutItem :=
  ({ st with fstate := (with_color theme.number theme st.fstate (fun s => f.write_f32 s value)).1 },
   (with_color theme.number theme st.fstate (fun s => f.write_f32 s value)).2)

/-- Source `ColorFormatter::write_f64`. -/
def ColorFormatter.write_f64 (f : Fmt σ) (theme : Theme) (st : CFState σ) (value : String) :
    CFState σ × List OutItem :=
  ({ st with fstate := (with_color theme.number theme st.fstate (fun s => f.write_f64 s value)).1 },
   (with_color theme.number theme st.fstate (fun s => f.write_f64 s value)).2)

/-- Source `ColorFormatter::write_number_str`. -/
def ColorFormatter.write_number_str (f : Fmt σ) (theme : Theme) (st : CFState σ) (value : String) :
    CFState σ × List OutItem :=
  ({ st with fstate := (with_color theme.number theme st.fstate (fun s => f.write_number_str s value)).1 },
   (with_color theme.number theme st.fstate (fun s => f.write_number_str s value)).2)

/-- Source `ColorFormatter::begin_string`: if not writing a key, conditionally set
the string color (recording whether applied) before delegating. -/
def ColorFormatter.begin_string (f : Fmt σ) (theme : Theme) (st : CFState σ) :
    CFState σ × List OutItem :=
  if !st.writing_key then
    ({ st with fstate := (f.begin_string st.fstate).1, need_reset := (set_color theme.string).2 },
     (set_color theme.string).1 ++ [OutItem.text (f.begin_string st.fstate).2])
  else
    ({ st with fstate := (f.begin_string st.fstate).1 },
     [OutItem.text (f.begin_string st.fstate).2])

/-- Source `ColorFormatter::end_string`: delegate first, then if not writing a key
and a color was applied (taking the flag), reset. -/
def ColorFormatter.end_string (f : Fmt σ) (theme : Theme) (st : CFState σ) :
    CFState σ × List OutItem :=
  if !st.writing_key then
    if st.need_reset then
      ({ st with fstate := (f.end_string st.fstate).1, need_reset := false },
       [OutItem.text (f.end_string st.fstate).2] ++ reset theme)
    else
      ({ st with fstate := (f.end_string st.fstate).1, need_reset := false },
       [OutItem.text (f.end_string st.fstate).2])
  else
    ({ st with fstate := (f.end_string st.fstate).1 },
     [OutItem.text (f.end_string st.fstate).2])

/-- Source `ColorFormatter::write_string_fragment`: pure delegation. -/
def ColorFormatter.write_string_fragment (f : Fmt σ) (st : CFState σ) (fragment : String) :
    CFState σ × List OutItem :=
  ({ st with fstate := (f.write_string_fragment st.fstate fragment).1 },
   [OutItem.text (f.write_string_fragment st.fstate fragment).2])

/-- Source `ColorFormatter::write_char_escape`: pure delegation. -/
def ColorFormatter.write_char_escape (f : Fmt σ) (st : CFState σ) (esc : CharEscape) :
    CFState σ × List OutItem :=
  ({ st with fstate := (f.write_char_escape st.fstate esc).1 },
   [OutItem.text (f.write_char_escape st.fstate esc).2])

/-- Source `ColorFormatter::begin_array`: pure delegation. -/
def ColorFormatter.begin_array (f : Fmt σ) (st : CFState σ) : CFState σ × List OutItem :=
  ({ st with fstate := (f.begin_array st.fstate).1 }, [OutItem.text (f.begin_array st.fstate).2])

/-- Source `ColorFormatter::end_array`: pure delegation. -/
def ColorFormatter.end_array (f : Fmt σ) (st : CFState σ) : CFState σ × List OutItem :=
  ({ st with fstate := (f.end_array st.fstate).1 }, [OutItem.text (f.end_array st.fstate).2])

/-- Source `ColorFormatter::begin_array_value`: pure delegation. -/
def ColorFormatter.begin_array_value (f : Fmt σ) (st : CFState σ) (first : Bool) :
    CFState σ × List OutItem :=
  ({ st with fstate := (f.begin_array_value st.fstate first).1 },
   [OutItem.text (f.begin_array_value st.fstate first).2])

/-- Source `ColorFormatter::end_array_value`: pure delegation. -/
def ColorFormatter.end_array_value (f : Fmt σ) (st : CFState σ) : CFState σ × List OutItem :=
  ({ st with fstate := (f.end_array_value st.fstate).1 },
   [OutItem.text (f.end_array_value st.fstate).2])

/-- Source `ColorFormatter::begin_object`: pure delegation. -/
def ColorFormatter.begin_object (f : Fmt σ) (st : CFState σ) : CFState σ × List OutItem :=
  ({ st with fstate := (f.begin_object st.fstate).1 }, [OutItem.text (f.begin_object st.fstate).2])

/-- Source `ColorFormatter::end_object`: pure delegation. -/
def ColorFormatter.end_object (f : Fmt σ) (st : CFState σ) : CFState σ × List OutItem :=
  ({ st with fstate := (f.end_object st.fstate).1 }, [OutItem.text (f.end_object st.fstate).2])

/-- Source `ColorFormatter::begin_object_key`: set `writing_key`, delegate, then
conditionally set the object-key color (recording whether applied). -/
def ColorFormatter.begin_object_key (f : Fmt σ) (theme : Theme) (st : CFState σ) (first : Bool) :
    CFState σ × List OutItem :=
  ({ st with writing_key := true, fstate := (f.begin_object_key st.fstate first).1,
             need_reset := (set_color theme.object_key).2 },
   [OutItem.text (f.begin_object_key st.fstate first).2] ++ (set_color theme.object_key).1)

/-- Source `ColorFormatter::end_object_key`: if a color was applied (taking the
flag), reset; delegate; clear `writing_key`. -/
def ColorFormatter.end_object_key (f : Fmt σ) (theme : Theme) (st : CFState σ) :
    CFState σ × List OutItem :=
  ({ st with fstate := (f.end_object_key st.fstate).1, writing_key := false, need_reset := false },
   (if st.need_reset then reset theme else []) ++ [OutItem.text (f.end_object_key st.fstate).2])

/-- Source `ColorFormatter::begin_object_value`: pure delegation. -/
def ColorFormatter.begin_object_value (f : Fmt σ) (st : CFState σ) : CFState σ × List OutItem :=
  ({ st with fstate := (f.begin_object_value st.fstate).1 },
   [OutItem.text (f.begin_object_value st.fstate).2])

/-- Source `ColorFormatter::end_object_value`: pure delegation. -/
def ColorFormatter.end_object_value (f : Fmt σ) (st : CFState σ) : CFState σ × List OutItem :=
  ({ st with fstate := (f.end_object_value st.fstate).1 },
   [OutItem.text (f.end_object_value st.fstate).2])

/-- Source `ColorFormatter::write_raw_fragment`: pure delegation. -/
def ColorFormatter.write_raw_fragment (f : Fmt σ) (st : CFState σ) (fragment : String) :
    CFState σ × List OutItem :=
  ({ st with fstate := (f.write_raw_fragment st.fstate fragment).1 },
   [OutItem.text (f.write_raw_fragment st.fstate fragment).2])

/-- Dispatch one event to the corresponding `ColorFormatter` callback. -/
def ColorFormatter.step (f : Fmt σ) (theme : Theme) (st : CFState σ) :
    Event → CFState σ × List OutItem
  | Event.writeNull => ColorFormatter.write_null f theme st
  | Event.writeBool v => ColorFormatter.write_bool f theme st v
  | Event.writeI8 v => ColorFormatter.write_i8 f theme st v
  | Event.writeI16 v => ColorFormatter.write_i16 f theme st v
  | Event.writeI32 v => ColorFormatter.write_i32 f theme st v
  | Event.writeI64 v => ColorFormatter.write_i64 f theme st v
  | Event.writeU8 v => ColorFormatter.write_u8 f theme st v
  | Event.writeU16 v => ColorFormatter.write_u16 f theme st v
  | Event.writeU32 v => ColorFormatter.write_u32 f theme st v
  | Event.writeU64 v => ColorFormatter.write_u64 f theme st v
  | Event.writeF32 v => ColorFormatter.write_f32 f theme st v
  | Event.writeF64 v => ColorFormatter.write_f64 f theme st v
  | Event.writeNumberStr v => ColorFormatter.write_number_str f theme st v
  | Event.beginString => ColorFormatter.begin_string f theme st
  | Event.endString => ColorFormatter.end_string f theme st
  | Event.writeStringFragment frag => ColorFormatter.write_string_fragment f st frag
  | Event.writeCharEscape esc => ColorFormatter.write_char_escape f st esc
  | Event.beginArray => ColorFormatter.begin_array f st
  | Event.endArray => ColorFormatter.end_array f st
  | Event.beginArrayValue first => ColorFormatter.begin_array_value f st first
  | Event.endArrayValue => ColorFormatter.end_array_value f st
  | Event.beginObject => ColorFormatter.begin_object f st
  | Event.endObject => ColorFormatter.end_object f st
  | Event.beginObjectKey first => ColorFormatter.begin_object_key f theme st first
  | Event.endObjectKey => ColorFormatter.end_object_key f theme st
  | Event.beginObjectValue => ColorFormatter.begin_object_value f st
  | Event.endObjectValue => ColorFormatter.end_object_value f st
  | Event.writeRawFragment frag => ColorFormatter.write_raw_fragment f st frag

/-- Run the color path over a list of events, collecting the output trace. -/
def runEvents (f : Fmt σ) (theme : Theme) : CFState σ → List Event → CFState σ × List OutItem
  | st, [] => (st, [])
  | st, e :: es =>
    ((runEvents f theme (ColorFormatter.step f theme st e).1 es).1,
     (ColorFormatter.step f theme st e).2 ++
       (runEvents f theme (ColorFormatter.step f theme st e).1 es).2)

/-- Source `to_writer_with_theme_and_formatter`: if the stream does not support
color, serialize through the plain engine directly; otherwise wrap it in a
`ColorFormatter` over the shared stream. -/
def to_writer_with_theme_and_formatter (supports_color : Bool) (theme : Theme)
    (f : Fmt σ) (s0 : σ) (events : List Event) : List OutItem :=
  if !supports_color then (plainRun f s0 events).2
  else (runEvents f theme (ColorFormatter.new s0) events).2

end Defs

section Engines

/-- Hex digit character used in `\u00XX` escapes. -/
def hexDigit (n : Nat) : Char :=
  if n < 10 then Char.ofNat (48 + n) else Char.ofNat (87 + n)

/-- Modelled from the spec: the bytes the plain-JSON engine writes for one
escaped character (serde_json's default `write_char_escape`). -/
def escapeBytes : CharEscape → String
  | CharEscape.quote => "\\\""
  | CharEscape.reverseSolidus => "\\\\"
  | CharEscape.solidus => "\\/"
  | CharEscape.backspace => "\\b"
  | CharEscape.formFeed => "\\f"
  | CharEscape.lineFeed => "\\n"
  | CharEscape.carriageReturn => "\\r"
  | CharEscape.tab => "\\t"
  | CharEscape.asciiControl b => "\\u00" ++ String.mk [hexDigit (b / 16), hexDigit (b % 16)]

/-- Modelled from the spec: the plain-JSON engine in compact layout
(serde_json's `CompactFormatter`, which uses every default callback). -/
def compactFmt : Fmt Unit where
  write_null := fun _ => ((), "null")
  write_bool := fun _ b => ((), if b then "true" else "false")
  write_i8 := fun _ v => ((), toString v)
  write_i16 := fun _ v => ((), toString v)
  write_i32 := fun _ v => ((), toString v)
  write_i64 := fun _ v => ((), toString v)
  write_u8 := fun _ v => ((), toString v)
  write_u16 := fun _ v => ((), toString v)
  write_u32 := fun _ v => ((), toString v)
  write_u64 := fun _ v => ((), toString v)
  write_f32 := fun _ v => ((), v)
  write_f64 := fun _ v => ((), v)
  write_number_str := fun _ v => ((), v)
  begin_string := fun _ => ((), "\"")
  end_string := fun _ => ((), "\"")
  write_string_fragment := fun _ s => ((), s)
  write_char_escape := fun _ e => ((), escapeBytes e)
  begin_array := fun _ => ((), "[")
  end_array := fun _ => ((), "]")
  begin_array_value := fun _ first => ((), if first then "" else ",")
  end_array_value := fun _ => ((), "")
  begin_object := fun _ => ((), "\x7b")
  end_object := fun _ => ((), "\x7d")
  begin_object_key := fun _ first => ((), if first then "" else ",")
  end_object_key := fun _ => ((), "")
  begin_object_value := fun _ => ((), ":")
  end_object_value := fun _ => ((), "")
  write_raw_fragment := fun _ s => ((), s)

/-- State of the pretty-layout plain engine: indent depth and the
`has_value` flag. -/
structure PrettyState where
  current_indent : Nat
  has_value : Bool
deriving DecidableEq, Repr

/-- Two spaces of indentation per level. -/
def prettyIndent (n : Nat) : String :=
  String.join (List.replicate n "  ")

/-- Modelled from the spec: the plain-JSON engine in pretty layout
(serde_json's `PrettyFormatter` with the default two-space indent). -/
def prettyFmt : Fmt PrettyState where
  write_null := fun s => (s, "null")
  write_bool := fun s b => (s, if b then "true" else "false")
  write_i8 := fun s v => (s, toString v)
  write_i16 := fun s v => (s, toString v)
  write_i32 := fun s v => (s, toString v)
  write_i64 := fun s v => (s, toString v)
  write_u8 := fun s v => (s, toString v)
  write_u16 := fun s v => (s, toString v)
  write_u32 := fun s v => (s, toString v)
  write_u64 := fun s v => (s, toString v)
  write_f32 := fun s v => (s, v)
  write_f64 := fun s v => (s, v)
  write_number_str := fun s v => (s, v)
  begin_string := fun s => (s, "\"")
  end_string := fun s => (s, "\"")
  write_string_fragment := fun s frag => (s, frag)
  write_char_escape := fun s e => (s, escapeBytes e)
  begin_array := fun s => ({ current_indent := s.current_indent + 1, has_value := false }, "[")
  end_array := fun s =>
    ({ s with current_indent := s.current_indent - 1 },
     (if s.has_value then "\n" ++ prettyIndent (s.current_indent - 1) else "") ++ "]")
  begin_array_value := fun s first =>
    (s, (if first then "\n" else ",\n") ++ prettyIndent s.current_indent)
  end_array_value := fun s => ({ s with has_value := true }, "")
  begin_object := fun s => ({ current_indent := s.current_indent + 1, has_value := false }, "\x7b")
  end_object := fun s =>
    ({ s with current_indent := s.current_indent - 1 },
     (if s.has_value then "\n" ++ prettyIndent (s.current_indent - 1) else "") ++ "\x7d")
  begin_object_key := fun s first =>
    (s, (if first then "\n" else ",\n") ++ prettyIndent s.current_indent)
  end_object_key := fun s => (s, "")
  begin_object_value := fun s => (s, ": ")
  end_object_value := fun s => ({ s with has_value := true }, "")
  write_raw_fragment := fun s frag => (s, frag)

/-- Initial state of the pretty engine (`PrettyFormatter::new()`). -/
def prettyInit : PrettyState :=
  { current_indent := 0, has_value := false }

/-- Source `to_writer`: default theme, pretty layout. -/
def to_writer (supports_color : Bool) (events : List Event) : List OutItem :=
  to_writer_with_theme_and_formatter supports_color Theme.default prettyFmt prettyInit events

/-- Source `to_writer_compact`: default theme, compact layout. -/
def to_writer_compact (supports_color : Bool) (events : List Event) : List OutItem :=
  to_writer_with_theme_and_formatter supports_color Theme.default compactFmt () events

/-- Source `to_writer_with_theme`: caller theme, pretty layout. -/
def to_writer_with_theme (supports_color : Bool) (theme : Theme) (events : List Event) :
    List OutItem :=
  to_writer_with_theme_and_formatter supports_color theme prettyFmt prettyInit events

end Engines

section Driver

/-- The theme category a scalar callback looks up, if the event is one of the
scalar callbacks wrapped by `with_color`. -/
def scalarCategory (theme : Theme) : Event → Option ColorSpec
  | Event.writeNull => some theme.null
  | Event.writeBool _ => some theme.bool
  | Event.writeI8 _ => some theme.number
  | Event.writeI16 _ => some theme.number
  | Event.writeI32 _ => some theme.number
  | Event.writeI64 _ => some theme.number
  | Event.writeU8 _ => some theme.number
  | Event.writeU16 _ => some theme.number
  | Event.writeU32 _ => some theme.number
  | Event.writeU64 _ => some theme.number
  | Event.writeF32 _ => some theme.number
  | Event.writeF64 _ => some theme.number
  | Event.writeNumberStr _ => some theme.number
  | _ => Option.none

/-- The callbacks the `ColorFormatter` implements as pure delegation:
string fragments, char escapes, raw fragments and all structural events. -/
def Event.isPassThrough : Event → Bool
  | Event.writeStringFragment _ => true
  | Event.writeCharEscape _ => true
  | Event.writeRawFragment _ => true
  | Event.beginArray => true
  | Event.endArray => true
  | Event.beginArrayValue _ => true
  | Event.endArrayValue => true
  | Event.beginObject => true
  | Event.endObject => true
  | Event.beginObjectValue => true
  | Event.endObjectValue => true
  | _ => false

/-- A JSON value, as serde_json's `Value` presents it to the serializer
(numbers restricted to one integer width; object entries in order). -/
inductive Json where
  | null
  | bool (b : Bool)
  | num (n : Int)
  | str (s : String)
  | arr (items : List Json)
  | obj (entries : List (String × Json))
deriving Repr

/-- Modelled from the spec: which characters the serialization driver escapes
inside JSON strings. -/
def needsEscape (c : Char) : Bool :=
  c = '"' || c = '\\' || c.toNat < 32

/-- Modelled from the spec: the escape payload the driver passes for an
escaped character. -/
def escapeOf (c : Char) : CharEscape :=
  if c = '"' then CharEscape.quote
  else if c = '\\' then CharEscape.reverseSolidus
  else if c.toNat = 8 then CharEscape.backspace
  else if c.toNat = 12 then CharEscape.formFeed
  else if c = '\n' then CharEscape.lineFeed
  else if c = '\r' then CharEscape.carriageReturn
  else if c = '\t' then CharEscape.tab
  else CharEscape.asciiControl c.toNat

/-- Modelled from the spec: the fragment/escape events the driver emits for
the content of one JSON string. -/
def fragEvents (s : String) : List Event :=
  s.data.map (fun c =>
    if needsEscape c then Event.writeCharEscape (escapeOf c)
    else Event.writeStringFragment (String.singleton c))

/-- Modelled from the spec: the full event sequence for one JSON string
(opening quote, content, closing quote). -/
def stringEvents (s : String) : List Event :=
  Event.beginString :: fragEvents s ++ [Event.endString]

mutual

/-- Modelled from the spec: the generic serialization driver, turning a value
into the sequence of formatter callbacks it invokes. -/
def eventsOf : Json → List Event
  | Json.null => [Event.writeNull]
  | Json.bool b => [Event.writeBool b]
  | Json.num n => [Event.writeI64 n]
  | Json.str s => stringEvents s
  | Json.arr items => Event.beginArray :: arrEvents true items ++ [Event.endArray]
  | Json.obj entries => Event.beginObject :: objEvents true entries ++ [Event.endObject]

/-- Events for the elements of an array, threading the `first` flag. -/
def arrEvents : Bool → List Json → List Event
  | _, [] => []
  | first, v :: vs =>
    Event.beginArrayValue first ::
      (eventsOf v ++ (Event.endArrayValue :: arrEvents false vs))

/-- Events for the entries of an object, threading the `first` flag. -/
def objEvents : Bool → List (String × Json) → List Event
  | _, [] => []
  | first, (k, v) :: kvs =>
    Event.beginObjectKey first ::
      (stringEvents k ++ (Event.endObjectKey :: Event.beginObjectValue ::
        (eventsOf v ++ (Event.endObjectValue :: objEvents false kvs))))

end

/-- The bytes the compact engine emits for the content of one JSON string,
one fragment or escape at a time. -/
def fragBytes (s : String) : List String :=
  s.data.map (fun c =>
    if needsEscape c then escapeBytes (escapeOf c) else String.singleton c)

/-- The body of a colored span is exactly one JSON literal: a keyword, an
integer numeral, or a quote-delimited string (quotes included). -/
def LitBody (body : List String) : Prop :=
  body = ["null"] ∨ body = ["true"] ∨ body = ["false"] ∨
    (∃ n : Int, body = [toString n]) ∨
    (∃ mid : List String, body = "\"" :: mid ++ ["\""])

/-- Well-formed colored traces: plain text segments interleaved with spans,
each span a non-empty color-set, the text of exactly one JSON literal, and
the reset spec `rs` — so a reset always fires before the next color-set. -/
inductive Spans (rs : ColorSpec) : List OutItem → Prop where
  | nil : Spans rs []
  | plain (s : String) {t : List OutItem} : Spans rs t → Spans rs (OutItem.text s :: t)
  | span (c : ColorSpec) (body : List String) {t : List OutItem} :
      c.is_none = false → LitBody body → Spans rs t →
      Spans rs (OutItem.ctrl c :: body.map OutItem.text ++ OutItem.ctrl rs :: t)

/-- Scanner form of the alternation property: `b` records whether a color is
currently set; a non-empty color-set requires no color set, an empty
(reset) spec requires one set; the stream's dedicated reset is never
acceptable; at the end no color may be left set. -/
def altScan : Bool → List OutItem → Bool
  | b, [] => !b
  | b, OutItem.text _ :: t => altScan b t
  | b, OutItem.ctrl c :: t => if c.is_none then b && altScan false t else !b && altScan true t
  | _, OutItem.resetOp :: _ => false

/-- The `writing_key` flag tracked over an event list: set by object-key
begin, cleared by object-key end, untouched by every other event. -/
def keyFlagFrom (b : Bool) : List Event → Bool
  | [] => b
  | Event.beginObjectKey _ :: es => keyFlagFrom true es
  | Event.endObjectKey :: es => keyFlagFrom false es
  | _ :: es => keyFlagFrom b es

end Driver

section Fallible

variable {σ : Type} {ε : Type} {α : Type}

/-- A stream that can fail: `fail_after = some (n, e)` makes the `(n+1)`-th
write operation fail with the I/O error `e`; `none` never fails.  Successful
writes are appended to `out` in order. -/
structure FWriter (ε : Type) where
  fail_after : Option (Nat × ε)
  out : List OutItem

/-- One write operation against the fallible stream. -/
def emitW (w : FWriter ε) (item : OutItem) : FWriter ε × Option ε :=
  match w.fail_after with
  | some (0, e) => (w, some e)
  | some (n + 1, e) => ({ fail_after := some (n, e), out := w.out ++ [item] }, Option.none)
  | Option.none => ({ w with out := w.out ++ [item] }, Option.none)

/-- Write a list of items in order, stopping at the first failure. -/
def emitList : FWriter ε → List OutItem → FWriter ε × Option ε
  | w, [] => (w, Option.none)
  | w, item :: items =>
    match emitW w item with
    | (w1, some e) => (w1, some e)
    | (w1, Option.none) => emitList w1 items

/-- Fallible `set_color`: empty spec writes nothing and reports `false`;
otherwise the stream's `set_color` call may fail, and the error propagates. -/
def set_colorE (w : FWriter ε) (color : ColorSpec) : FWriter ε × Except ε Bool :=
  if color.is_none then (w, Except.ok false)
  else
    match emitW w (OutItem.ctrl color) with
    | (w1, some e) => (w1, Except.error e)
    | (w1, Option.none) => (w1, Except.ok true)

/-- Fallible `reset`: sends the theme's reset spec through `set_color`. -/
def resetE (w : FWriter ε) (theme : Theme) : FWriter ε × Except ε Unit :=
  match emitW w (OutItem.ctrl theme.reset) with
  | (w1, some e) => (w1, Except.error e)
  | (w1, Option.none) => (w1, Except.ok ())

/-- Fallible delegate call: the plain engine's bytes are one write against
the shared stream. -/
def delegateE (w : FWriter ε) (bytes : String) : FWriter ε × Except ε Unit :=
  match emitW w (OutItem.text bytes) with
  | (w1, some e) => (w1, Except.error e)
  | (w1, Option.none) => (w1, Except.ok ())

/-- Fallible `with_color`: each `?` of the source aborts the remaining
operations of the callback and surfaces the error. -/
def with_colorE (w : FWriter ε) (color : ColorSpec) (theme : Theme) (s : σ)
    (write : σ → σ × String) : FWriter ε × Except ε σ :=
  match set_colorE w color with
  | (w1, Except.error e) => (w1, Except.error e)
  | (w1, Except.ok true) =>
    match delegateE w1 (write s).2 with
    | (w2, Except.error e) => (w2, Except.error e)
    | (w2, Except.ok _) =>
      match resetE w2 theme with
      | (w3, Except.error e) => (w3, Except.error e)
      | (w3, Except.ok _) => (w3, Except.ok (write s).1)
  | (w1, Except.ok false) =>
    match delegateE w1 (write s).2 with
    | (w2, Except.error e) => (w2, Except.error e)
    | (w2, Except.ok _) => (w2, Except.ok (write s).1)

/-- Abbreviation for a fallible scalar callback: run `with_colorE` and store
the new engine state on success. -/
def scalarStepE (w : FWriter ε) (color : ColorSpec) (theme : Theme) (st : CFState σ)
    (write : σ → σ × String) : FWriter ε × Except ε (CFState σ) :=
  match with_colorE w color theme st.fstate write with
  | (w1, Except.error err) => (w1, Except.error err)
  | (w1, Except.ok s') => (w1, Except.ok { st with fstate := s' })

/-- Abbreviation for a fallible pure-delegation callback. -/
def delegateStepE (w : FWriter ε) (bytes : String) (st' : CFState σ) :
    FWriter ε × Except ε (CFState σ) :=
  match delegateE w bytes with
  | (w1, Except.error err) => (w1, Except.error err)
  | (w1, Except.ok _) => (w1, Except.ok st')

/-- Fallible dispatch of one event through the `ColorFormatter` callbacks:
write operations happen in source order, and the first I/O failure aborts
the callback with that error. -/
def stepE (f : Fmt σ) (theme : Theme) (w : FWriter ε) (st : CFState σ) :
    Event → FWriter ε × Except ε (CFState σ)
  | Event.writeNull => scalarStepE w theme.null theme st f.write_null
  | Event.writeBool v => scalarStepE w theme.bool theme st (fun s => f.write_bool s v)
  | Event.writeI8 v => scalarStepE w theme.number theme st (fun s => f.write_i8 s v)
  | Event.writeI16 v => scalarStepE w theme.number theme st (fun s => f.write_i16 s v)
  | Event.writeI32 v => scalarStepE w theme.number theme st (fun s => f.write_i32 s v)
  | Event.writeI64 v => scalarStepE w theme.number theme st (fun s => f.write_i64 s v)
  | Event.writeU8 v => scalarStepE w theme.number theme st (fun s => f.write_u8 s v)
  | Event.writeU16 v => scalarStepE w theme.number theme st (fun s => f.write_u16 s v)
  | Event.writeU32 v => scalarStepE w theme.number theme st (fun s => f.write_u32 s v)
  | Event.writeU64 v => scalarStepE w theme.number theme st (fun s => f.write_u64 s v)
  | Event.writeF32 v => scalarStepE w theme.number theme st (fun s => f.write_f32 s v)
  | Event.writeF64 v => scalarStepE w theme.number theme st (fun s => f.write_f64 s v)
  | Event.writeNumberStr v => scalarStepE w theme.number theme st (fun s => f.write_number_str s v)
  | Event.beginString =>
    if !st.writing_key then
      match set_colorE w theme.string with
      | (w1, Except.error e) => (w1, Except.error e)
      | (w1, Except.ok applied) =>
        match delegateE w1 (f.begin_string st.fstate).2 with
        | (w2, Except.error e) => (w2, Except.error e)
        | (w2, Except.ok _) =>
          (w2, Except.ok { st with fstate := (f.begin_string st.fstate).1, need_reset := applied })
    else
      delegateStepE w (f.begin_string st.fstate).2
        { st with fstate := (f.begin_string st.fstate).1 }
  | Event.endString =>
    match delegateE w (f.end_string st.fstate).2 with
    | (w1, Except.error e) => (w1, Except.error e)
    | (w1, Except.ok _) =>
      if !st.writing_key then
        if st.need_reset then
          match resetE w1 theme with
          | (w2, Except.error e) => (w2, Except.error e)
          | (w2, Except.ok _) =>
            (w2, Except.ok { st with fstate := (f.end_string st.fstate).1, need_reset := false })
        else
          (w1, Except.ok { st with fstate := (f.end_string st.fstate).1, need_reset := false })
      else (w1, Except.ok { st with fstate := (f.end_string st.fstate).1 })
  | Event.writeStringFragment frag =>
    delegateStepE w (f.write_string_fragment st.fstate frag).2
      { st with fstate := (f.write_string_fragment st.fstate frag).1 }
  | Event.writeCharEscape esc =>
    delegateStepE w (f.write_char_escape st.fstate esc).2
      { st with fstate := (f.write_char_escape st.fstate esc).1 }
  | Event.beginArray =>
    delegateStepE w (f.begin_array st.fstate).2 { st with fstate := (f.begin_array st.fstate).1 }
  | Event.endArray =>
    delegateStepE w (f.end_array st.fstate).2 { st with fstate := (f.end_array st.fstate).1 }
  | Event.beginArrayValue first =>
    delegateStepE w (f.begin_array_value st.fstate first).2
      { st with fstate := (f.begin_array_value st.fstate first).1 }
  | Event.endArrayValue =>
    delegateStepE w (f.end_array_value st.fstate).2
      { st with fstate := (f.end_array_value st.fstate).1 }
  | Event.beginObject =>
    delegateStepE w (f.begin_object st.fstate).2
      { st with fstate := (f.begin_object st.fstate).1 }
  | Event.endObject =>
    delegateStepE w (f.end_object st.fstate).2 { st with fstate := (f.end_object st.fstate).1 }
  | Event.beginObjectKey first =>
    match delegateE w (f.begin_object_key st.fstate first).2 with
    | (w1, Except.error e) => (w1, Except.error e)
    | (w1, Except.ok _) =>
      match set_colorE w1 theme.object_key with
      | (w2, Except.error e) => (w2, Except.error e)
      | (w2, Except.ok applied) =>
        (w2, Except.ok { st with writing_key := true,
                                 fstate := (f.begin_object_key st.fstate first).1,
                                 need_reset := applied })
  | Event.endObjectKey =>
    match (if st.need_reset then resetE w theme else (w, Except.ok ())) with
    | (w1, Except.error e) => (w1, Except.error e)
    | (w1, Except.ok _) =>
      match delegateE w1 (f.end_object_key st.fstate).2 with
      | (w2, Except.error e) => (w2, Except.error e)
      | (w2, Except.ok _) =>
        (w2, Except.ok { st with fstate := (f.end_object_key st.fstate).1,
                                 writing_key := false, need_reset := false })
  | Event.beginObjectValue =>
    delegateStepE w (f.begin_object_value st.fstate).2
      { st with fstate := (f.begin_object_value st.fstate).1 }
  | Event.endObjectValue =>
    delegateStepE w (f.end_object_value st.fstate).2
      { st with fstate := (f.end_object_value st.fstate).1 }
  | Event.writeRawFragment frag =>
    delegateStepE w (f.write_raw_fragment st.fstate frag).2
      { st with fstate := (f.write_raw_fragment st.fstate frag).1 }

/-- Write a list of items, stopping at the first failure; on success return
the given value (the common shape of every fallible callback's result). -/
def emitThen (w : FWriter ε) (items : List OutItem) (a : α) : FWriter ε × Except ε α :=
  match emitList w items with
  | (w1, Option.none) => (w1, Except.ok a)
  | (w1, some e) => (w1, Except.error e)

/-- Run the fallible color path: the first failing event aborts the walk and
its error is the call's result. -/
def runE (f : Fmt σ) (theme : Theme) : FWriter ε → CFState σ → List Event →
    FWriter ε × Except ε (CFState σ)
  | w, st, [] => (w, Except.ok st)
  | w, st, e :: es =>
    match stepE f theme w st e with
    | (w1, Except.error err) => (w1, Except.error err)
    | (w1, Except.ok st1) => runE f theme w1 st1 es

end Fallible

/-! ## Infrastructure lemmas -/

section Infra

variable {σ : Type} {ε : Type}

@[simp]
theorem ColorSpec.is_none_new : ColorSpec.new.is_none = true := rfl

theorem runEvents_append (f : Fmt σ) (theme : Theme) (st : CFState σ)
    (es1 es2 : List Event) :
    runEvents f theme st (es1 ++ es2) =
      ((runEvents f theme (runEvents f theme st es1).1 es2).1,
       (runEvents f theme st es1).2 ++ (runEvents f theme (runEvents f theme st es1).1 es2).2) := by
  induction es1 generalizing st with
  | nil => simp [runEvents]
  | cons e es ih => simp [runEvents, ih]

theorem runEvents_cons (f : Fmt σ) (theme : Theme) (st : CFState σ) (e : Event)
    (es : List Event) :
    runEvents f theme st (e :: es) =
      ((runEvents f theme (ColorFormatter.step f theme st e).1 es).1,
       (ColorFormatter.step f theme st e).2 ++
         (runEvents f theme (ColorFormatter.step f theme st e).1 es).2) := rfl

theorem plainRun_append (f : Fmt σ) (s : σ) (es1 es2 : List Event) :
    plainRun f s (es1 ++ es2) =
      ((plainRun f (plainRun f s es1).1 es2).1,
       (plainRun f s es1).2 ++ (plainRun f (plainRun f s es1).1 es2).2) := by
  induction es1 generalizing s with
  | nil => simp [plainRun]
  | cons e es ih => simp [plainRun, ih]

theorem plainRun_texts (f : Fmt σ) (s : σ) (es : List Event) :
    ∀ item ∈ (plainRun f s es).2, ∃ b, item = OutItem.text b := by
  induction es generalizing s with
  | nil => simp [plainRun]
  | cons e es ih =>
    intro item hmem
    simp only [plainRun, List.mem_cons] at hmem
    rcases hmem with h | h
    · exact ⟨_, h⟩
    · exact ih _ _ h

theorem step_none (f : Fmt σ) (st : CFState σ) (e : Event)
    (h : st.need_reset = false) :
    (ColorFormatter.step f Theme.none st e).2 = [OutItem.text (plainStep f st.fstate e).2] ∧
      (ColorFormatter.step f Theme.none st e).1.fstate = (plainStep f st.fstate e).1 ∧
      (ColorFormatter.step f Theme.none st e).1.need_reset = false := by
  cases e <;>
    simp [ColorFormatter.step, ColorFormatter.write_null, ColorFormatter.write_bool,
      ColorFormatter.write_i8, ColorFormatter.write_i16, ColorFormatter.write_i32,
      ColorFormatter.write_i64, ColorFormatter.write_u8, ColorFormatter.write_u16,
      ColorFormatter.write_u32, ColorFormatter.write_u64, ColorFormatter.write_f32,
      ColorFormatter.write_f64, ColorFormatter.write_number_str,
      ColorFormatter.begin_string, ColorFormatter.end_string,
      ColorFormatter.write_string_fragment, ColorFormatter.write_char_escape,
      ColorFormatter.begin_array, ColorFormatter.end_array,
      ColorFormatter.begin_array_value, ColorFormatter.end_array_value,
      ColorFormatter.begin_object, ColorFormatter.end_object,
      ColorFormatter.begin_object_key, ColorFormatter.end_object_key,
      ColorFormatter.begin_object_value, ColorFormatter.end_object_value,
      ColorFormatter.write_raw_fragment, with_color, set_color, reset,
      plainStep, Theme.none, Theme.new, h]

theorem runEvents_none (f : Fmt σ) (es : List Event) (st : CFState σ)
    (h : st.need_reset = false) :
    (runEvents f Theme.none st es).2 = (plainRun f st.fstate es).2 ∧
      (runEvents f Theme.none st es).1.fstate = (plainRun f st.fstate es).1 ∧
      (runEvents f Theme.none st es).1.need_reset = false := by
  induction es generalizing st with
  | nil => simp [runEvents, plainRun, h]
  | cons e es ih =>
    obtain ⟨h1, h2, h3⟩ := step_none f st e h
    obtain ⟨ih1, ih2, ih3⟩ := ih (ColorFormatter.step f Theme.none st e).1 h3
    refine ⟨?_, ?_, ?_⟩
    · simp [runEvents, h1, ih1, h2, plainRun]
    · simp [runEvents, ih2, h2, plainRun]
    · simp [runEvents, ih3]

end Infra

section Infra2

variable {σ : Type}

theorem set_color_snd (c : ColorSpec) : (set_color c).2 = !c.is_none := by
  by_cases h : c.is_none <;> simp [set_color, h]

theorem step_passthrough (f : Fmt σ) (theme : Theme) (st : CFState σ) (e : Event)
    (h : e.isPassThrough = true) :
    ColorFormatter.step f theme st e =
      ({ st with fstate := (plainStep f st.fstate e).1 },
       [OutItem.text (plainStep f st.fstate e).2]) := by
  cases e <;> simp [Event.isPassThrough] at h <;>
    simp [ColorFormatter.step, ColorFormatter.write_string_fragment,
      ColorFormatter.write_char_escape, ColorFormatter.begin_array, ColorFormatter.end_array,
      ColorFormatter.begin_array_value, ColorFormatter.end_array_value,
      ColorFormatter.begin_object, ColorFormatter.end_object,
      ColorFormatter.begin_object_value, ColorFormatter.end_object_value,
      ColorFormatter.write_raw_fragment, plainStep]

theorem runEvents_passthrough (f : Fmt σ) (theme : Theme) (es : List Event)
    (h : ∀ e ∈ es, e.isPassThrough = true) (st : CFState σ) :
    runEvents f theme st es =
      ({ st with fstate := (plainRun f st.fstate es).1 }, (plainRun f st.fstate es).2) := by
  induction es generalizing st with
  | nil => simp [runEvents, plainRun]
  | cons e es ih =>
    have he := h e (List.mem_cons_self e es)
    have hrest : ∀ x ∈ es, x.isPassThrough = true := fun x hx => h x (List.mem_cons_of_mem e hx)
    simp [runEvents, step_passthrough f theme st e he, ih hrest, plainRun]

theorem step_writing_key (f : Fmt σ) (theme : Theme) (st : CFState σ) (e : Event) :
    (ColorFormatter.step f theme st e).1.writing_key = keyFlagFrom st.writing_key [e] := by
  cases e <;> by_cases hwk : st.writing_key <;> by_cases hnr : st.need_reset <;>
    simp [ColorFormatter.step, ColorFormatter.write_null, ColorFormatter.write_bool,
      ColorFormatter.write_i8, ColorFormatter.write_i16, ColorFormatter.write_i32,
      ColorFormatter.write_i64, ColorFormatter.write_u8, ColorFormatter.write_u16,
      ColorFormatter.write_u32, ColorFormatter.write_u64, ColorFormatter.write_f32,
      ColorFormatter.write_f64, ColorFormatter.write_number_str,
      ColorFormatter.begin_string, ColorFormatter.end_string,
      ColorFormatter.write_string_fragment, ColorFormatter.write_char_escape,
      ColorFormatter.begin_array, ColorFormatter.end_array,
      ColorFormatter.begin_array_value, ColorFormatter.end_array_value,
      ColorFormatter.begin_object, ColorFormatter.end_object,
      ColorFormatter.begin_object_key, ColorFormatter.end_object_key,
      ColorFormatter.begin_object_value, ColorFormatter.end_object_value,
      ColorFormatter.write_raw_fragment, keyFlagFrom, hwk, hnr]

end Infra2

/-! ## Claim theorems -/

/-- C1: with a stream that does not support color, each of the four entry
points produces exactly the plain engine's output — `to_writer` and
`to_writer_with_theme` with the pretty engine, `to_writer_compact` with the
compact engine, and `to_writer_with_theme_and_formatter` with any engine. -/
theorem spec_c1_no_color_passthrough {σ : Type} (f : Fmt σ) (s0 : σ) (theme : Theme)
    (events : List Event) :
    to_writer_with_theme_and_formatter false theme f s0 events = (plainRun f s0 events).2 ∧
      to_writer false events = (plainRun prettyFmt prettyInit events).2 ∧
      to_writer_compact false events = (plainRun compactFmt () events).2 ∧
      to_writer_with_theme false theme events = (plainRun prettyFmt prettyInit events).2 := by
  refine ⟨rfl, rfl, rfl, rfl⟩

/-- C2: on a color-capable stream, the color path with the empty theme
`Theme.none` produces exactly the plain engine's output, with no
color-control operations in the trace at all. -/
theorem spec_c2_empty_theme_passthrough {σ : Type} (f : Fmt σ) (s0 : σ)
    (events : List Event) :
    to_writer_with_theme_and_formatter true Theme.none f s0 events =
        (plainRun f s0 events).2 ∧
      ∀ item ∈ to_writer_with_theme_and_formatter true Theme.none f s0 events,
        ∃ b, item = OutItem.text b := by
  have h := runEvents_none f events (ColorFormatter.new s0) rfl
  constructor
  · simpa [to_writer_with_theme_and_formatter, ColorFormatter.new] using h.1
  · intro item hmem
    rw [show to_writer_with_theme_and_formatter true Theme.none f s0 events =
        (runEvents f Theme.none (ColorFormatter.new s0) events).2 from rfl, h.1] at hmem
    exact plainRun_texts f _ events item hmem

/-- C3: every scalar callback (null, bool, each integer width, each float
width, numeric string) with a non-empty category spec emits exactly a
color-set for that spec, the underlying engine's same callback's bytes, and a
reset; with an empty spec it emits the delegate's bytes alone. -/
theorem spec_c3_scalar_with_color {σ : Type} (f : Fmt σ) (theme : Theme) (st : CFState σ)
    (e : Event) (c : ColorSpec) (h : scalarCategory theme e = some c) :
    ColorFormatter.step f theme st e =
      ({ st with fstate := (plainStep f st.fstate e).1 },
       if c.is_none then [OutItem.text (plainStep f st.fstate e).2]
       else [OutItem.ctrl c, OutItem.text (plainStep f st.fstate e).2,
             OutItem.ctrl theme.reset]) := by
  cases e <;> simp only [scalarCategory, Option.some.injEq, reduceCtorEq] at h <;>
    by_cases hn : c.is_none <;> subst h <;>
    simp_all [ColorFormatter.step, ColorFormatter.write_null, ColorFormatter.write_bool,
      ColorFormatter.write_i8, ColorFormatter.write_i16, ColorFormatter.write_i32,
      ColorFormatter.write_i64, ColorFormatter.write_u8, ColorFormatter.write_u16,
      ColorFormatter.write_u32, ColorFormatter.write_u64, ColorFormatter.write_f32,
      ColorFormatter.write_f64, ColorFormatter.write_number_str,
      with_color, set_color, reset, plainStep]

/-- C3 witness: the null callback with the default theme's (non-empty) null
spec on the compact engine. -/
theorem spec_c3_scalar_with_color_witness :
    scalarCategory Theme.default Event.writeNull = some Theme.default.null ∧
      ColorFormatter.step compactFmt Theme.default (ColorFormatter.new ()) Event.writeNull =
        ({ ColorFormatter.new () with
           fstate := (plainStep compactFmt () Event.writeNull).1 },
         if Theme.default.null.is_none then
           [OutItem.text (plainStep compactFmt () Event.writeNull).2]
         else
           [OutItem.ctrl Theme.default.null, OutItem.text (plainStep compactFmt () Event.writeNull).2,
            OutItem.ctrl Theme.default.reset]) :=
  ⟨rfl, spec_c3_scalar_with_color compactFmt Theme.default (ColorFormatter.new ())
    Event.writeNull Theme.default.null rfl⟩

/-- C4: for a string written as a value, `begin_string` conditionally emits
the string color before delegating and records whether it did; `end_string`
delegates first and resets only if a color was recorded.  While
`writing_key` is true both are pure delegation. -/
theorem spec_c4_string_begin_end {σ : Type} (f : Fmt σ) (theme : Theme) (st : CFState σ) :
    (st.writing_key = false →
      ColorFormatter.begin_string f theme st =
        ({ st with fstate := (f.begin_string st.fstate).1,
                   need_reset := !theme.string.is_none },
         (if theme.string.is_none then [] else [OutItem.ctrl theme.string]) ++
           [OutItem.text (f.begin_string st.fstate).2])) ∧
    (st.writing_key = false →
      ColorFormatter.end_string f theme st =
        ({ st with fstate := (f.end_string st.fstate).1, need_reset := false },
         [OutItem.text (f.end_string st.fstate).2] ++
           (if st.need_reset then [OutItem.ctrl theme.reset] else []))) ∧
    (st.writing_key = true →
      ColorFormatter.begin_string f theme st =
        ({ st with fstate := (f.begin_string st.fstate).1 },
         [OutItem.text (f.begin_string st.fstate).2])) ∧
    (st.writing_key = true →
      ColorFormatter.end_string f theme st =
        ({ st with fstate := (f.end_string st.fstate).1 },
         [OutItem.text (f.end_string st.fstate).2])) := by
  refine ⟨fun h => ?_, fun h => ?_, fun h => ?_, fun h => ?_⟩ <;>
    by_cases hs : theme.string.is_none <;> by_cases hnr : st.need_reset <;>
    simp [ColorFormatter.begin_string, ColorFormatter.end_string, set_color, reset, h, hs, hnr]

/-- C4 witness: both flag values exercised on the compact engine with the
default theme. -/
theorem spec_c4_string_begin_end_witness :
    ColorFormatter.begin_string compactFmt Theme.default (ColorFormatter.new ()) =
        ({ ColorFormatter.new () with
           fstate := (compactFmt.begin_string ()).1,
           need_reset := !Theme.default.string.is_none },
         (if Theme.default.string.is_none then [] else [OutItem.ctrl Theme.default.string]) ++
           [OutItem.text (compactFmt.begin_string ()).2]) ∧
      ColorFormatter.end_string compactFmt Theme.default ⟨(), true, true⟩ =
        ({ (⟨(), true, true⟩ : CFState Unit) with fstate := (compactFmt.end_string ()).1 },
         [OutItem.text (compactFmt.end_string ()).2]) :=
  ⟨(spec_c4_string_begin_end compactFmt Theme.default (ColorFormatter.new ())).1 rfl,
   (spec_c4_string_begin_end compactFmt Theme.default ⟨(), true, true⟩).2.2.2 rfl⟩

/-- C5: `begin_object_key` sets `writing_key`, delegates, then conditionally
emits the object-key color (recording whether applied); `end_object_key`
resets first if a color was applied, then delegates, then clears
`writing_key`.  Consequently a whole key episode is colored, quotes
included, with the object-key spec — the string spec never appears. -/
theorem spec_c5_object_key_order {σ : Type} (f : Fmt σ) (theme : Theme) (st : CFState σ)
    (first : Bool) :
    ColorFormatter.begin_object_key f theme st first =
        ({ st with writing_key := true, fstate := (f.begin_object_key st.fstate first).1,
                   need_reset := !theme.object_key.is_none },
         [OutItem.text (f.begin_object_key st.fstate first).2] ++
           (if theme.object_key.is_none then [] else [OutItem.ctrl theme.object_key])) ∧
      ColorFormatter.end_object_key f theme st =
        ({ st with fstate := (f.end_object_key st.fstate).1, writing_key := false,
                   need_reset := false },
         (if st.need_reset then [OutItem.ctrl theme.reset] else []) ++
           [OutItem.text (f.end_object_key st.fstate).2]) ∧
      (∀ frags : List Event, theme.object_key.is_none = false →
        (∀ e ∈ frags, e.isPassThrough = true) →
        (runEvents f theme st
            (Event.beginObjectKey first :: Event.beginString ::
              (frags ++ [Event.endString, Event.endObjectKey]))).2 =
          OutItem.text (f.begin_object_key st.fstate first).2 ::
            OutItem.ctrl theme.object_key ::
            OutItem.text (f.begin_string (f.begin_object_key st.fstate first).1).2 ::
            ((plainRun f (f.begin_string (f.begin_object_key st.fstate first).1).1 frags).2 ++
              [OutItem.text (f.end_string
                  (plainRun f (f.begin_string (f.begin_object_key st.fstate first).1).1 frags).1).2,
               OutItem.ctrl theme.reset,
               OutItem.text (f.end_object_key (f.end_string
                  (plainRun f (f.begin_string
                    (f.begin_object_key st.fstate first).1).1 frags).1).1).2])) := by
  refine ⟨?_, ?_, ?_⟩
  · by_cases hk : theme.object_key.is_none <;>
      simp [ColorFormatter.begin_object_key, set_color, hk]
  · by_cases hnr : st.need_reset <;>
      simp [ColorFormatter.end_object_key, reset, hnr]
  · intro frags hk hfrags
    simp only [runEvents, ColorFormatter.step]
    rw [runEvents_append]
    have h1 : ColorFormatter.begin_object_key f theme st first =
        ({ st with writing_key := true, fstate := (f.begin_object_key st.fstate first).1,
                   need_reset := true },
         [OutItem.text (f.begin_object_key st.fstate first).2, OutItem.ctrl theme.object_key]) := by
      simp [ColorFormatter.begin_object_key, set_color, hk]
    rw [h1]
    simp only [ColorFormatter.begin_string, Bool.not_true, if_neg, Bool.false_eq_true,
      not_false_eq_true, if_false]
    rw [runEvents_passthrough f theme frags hfrags]
    simp [runEvents, ColorFormatter.step, ColorFormatter.end_string,
      ColorFormatter.end_object_key, reset]

/-- C5 witness: a one-fragment key on the compact engine with the default
theme; the trace shows the key bytes, quotes included, bracketed by the
object-key color and the reset. -/
theorem spec_c5_object_key_order_witness :
    (runEvents compactFmt Theme.default (ColorFormatter.new ())
        (Event.beginObjectKey true :: Event.beginString ::
          ([Event.writeStringFragment "k"] ++ [Event.endString, Event.endObjectKey]))).2 =
      OutItem.text "" :: OutItem.ctrl Theme.default.object_key :: OutItem.text "\"" ::
        ([OutItem.text "k"] ++ [OutItem.text "\"", OutItem.ctrl Theme.default.reset,
          OutItem.text ""]) := by
  have h := (spec_c5_object_key_order compactFmt Theme.default (ColorFormatter.new ()) true).2.2
    [Event.writeStringFragment "k"] rfl (by decide)
  simpa [compactFmt, plainRun, plainStep] using h

/-- C6: string fragments, char escapes, raw fragments and every structural
callback are pure delegation with no color-control output; hence a string
value spanning several fragments gets exactly one color-set and one reset
around the whole `begin_string … end_string` episode, and brackets, braces,
commas and colons are never colored. -/
theorem spec_c6_pure_delegation {σ : Type} (f : Fmt σ) (theme : Theme) (st : CFState σ) :
    (∀ e : Event, e.isPassThrough = true →
      ColorFormatter.step f theme st e =
        ({ st with fstate := (plainStep f st.fstate e).1 },
         [OutItem.text (plainStep f st.fstate e).2])) ∧
      (∀ frags : List Event, st.writing_key = false → theme.string.is_none = false →
        (∀ e ∈ frags, e.isPassThrough = true) →
        (runEvents f theme st (Event.beginString :: (frags ++ [Event.endString]))).2 =
          OutItem.ctrl theme.string :: OutItem.text (f.begin_string st.fstate).2 ::
            ((plainRun f (f.begin_string st.fstate).1 frags).2 ++
              [OutItem.text (f.end_string
                  (plainRun f (f.begin_string st.fstate).1 frags).1).2,
               OutItem.ctrl theme.reset]) ∧
          ∀ item ∈ (plainRun f (f.begin_string st.fstate).1 frags).2,
            ∃ b, item = OutItem.text b) := by
  refine ⟨fun e he => step_passthrough f theme st e he, fun frags hwk hs hfrags => ?_⟩
  refine ⟨?_, plainRun_texts f _ frags⟩
  simp only [runEvents, ColorFormatter.step]
  have h1 : ColorFormatter.begin_string f theme st =
      ({ st with fstate := (f.begin_string st.fstate).1, need_reset := true },
       [OutItem.ctrl theme.string, OutItem.text (f.begin_string st.fstate).2]) := by
    simp [ColorFormatter.begin_string, set_color, hwk, hs]
  rw [h1]
  rw [runEvents_append]
  rw [runEvents_passthrough f theme frags hfrags]
  simp [runEvents, ColorFormatter.step, ColorFormatter.end_string, reset, hwk]

/-- C6 witness: a two-fragment string with an escape in the middle, on the
compact engine with the default theme: one color-set, one reset. -/
theorem spec_c6_pure_delegation_witness :
    (runEvents compactFmt Theme.default (ColorFormatter.new ())
        (Event.beginString ::
          ([Event.writeStringFragment "a", Event.writeCharEscape CharEscape.lineFeed,
            Event.writeStringFragment "b"] ++ [Event.endString]))).2 =
      OutItem.ctrl Theme.default.string :: OutItem.text "\"" ::
        ([OutItem.text "a", OutItem.text "\\n", OutItem.text "b"] ++
          [OutItem.text "\"", OutItem.ctrl Theme.default.reset]) := by
  have h := (spec_c6_pure_delegation compactFmt Theme.default (ColorFormatter.new ())).2
    [Event.writeStringFragment "a", Event.writeCharEscape CharEscape.lineFeed,
      Event.writeStringFragment "b"] rfl rfl (by decide)
  simpa [compactFmt, plainRun, plainStep, escapeBytes] using h.1

section Infra3

variable {σ : Type}

theorem keyFlagFrom_append (b : Bool) (es1 es2 : List Event) :
    keyFlagFrom b (es1 ++ es2) = keyFlagFrom (keyFlagFrom b es1) es2 := by
  induction es1 generalizing b with
  | nil => simp [keyFlagFrom]
  | cons e es ih => cases e <;> simp [keyFlagFrom, ih]

theorem keyFlagFrom_fragEvents (b : Bool) (s : String) :
    keyFlagFrom b (fragEvents s) = b := by
  unfold fragEvents
  induction s.data with
  | nil => simp [keyFlagFrom]
  | cons c cs ih => by_cases h : needsEscape c <;> simp [keyFlagFrom, h, ih]

theorem keyFlagFrom_stringEvents (b : Bool) (s : String) :
    keyFlagFrom b (stringEvents s) = b := by
  simp [stringEvents, keyFlagFrom, keyFlagFrom_append, keyFlagFrom_fragEvents]

end Infra3

mutual

theorem keyFlag_eventsOf : ∀ v : Json, keyFlagFrom false (eventsOf v) = false
  | Json.null => by simp [eventsOf, keyFlagFrom]
  | Json.bool b => by simp [eventsOf, keyFlagFrom]
  | Json.num n => by simp [eventsOf, keyFlagFrom]
  | Json.str s => by simpa [eventsOf] using keyFlagFrom_stringEvents false s
  | Json.arr items => by
    simp [eventsOf, keyFlagFrom, keyFlagFrom_append, keyFlag_arrEvents true items]
  | Json.obj entries => by
    simp [eventsOf, keyFlagFrom, keyFlagFrom_append, keyFlag_objEvents true entries]

theorem keyFlag_arrEvents : ∀ (first : Bool) (vs : List Json),
    keyFlagFrom false (arrEvents first vs) = false
  | _, [] => by simp [arrEvents, keyFlagFrom]
  | first, v :: vs => by
    simp [arrEvents, keyFlagFrom, keyFlagFrom_append, keyFlag_eventsOf v,
      keyFlag_arrEvents false vs]

theorem keyFlag_objEvents : ∀ (first : Bool) (kvs : List (String × Json)),
    keyFlagFrom false (objEvents first kvs) = false
  | _, [] => by simp [objEvents, keyFlagFrom]
  | first, (k, v) :: kvs => by
    simp [objEvents, keyFlagFrom, keyFlagFrom_append, keyFlagFrom_stringEvents,
      keyFlag_eventsOf v, keyFlag_objEvents false kvs]

end

theorem runEvents_writing_key {σ : Type} (f : Fmt σ) (theme : Theme) :
    ∀ (es : List Event) (st : CFState σ),
      (runEvents f theme st es).1.writing_key = keyFlagFrom st.writing_key es := by
  intro es
  induction es with
  | nil => intro st; simp [runEvents, keyFlagFrom]
  | cons e es ih =>
    intro st
    have h := step_writing_key f theme st e
    calc (runEvents f theme st (e :: es)).1.writing_key
        = keyFlagFrom (ColorFormatter.step f theme st e).1.writing_key es := by
          simp [runEvents, ih]
      _ = keyFlagFrom (keyFlagFrom st.writing_key [e]) es := by rw [h]
      _ = keyFlagFrom st.writing_key (e :: es) := by
          rw [← keyFlagFrom_append]; rfl

/-- C9: the `writing_key` flag starts false, is set by `begin_object_key`,
cleared by `end_object_key`, untouched by every other callback; over any
event list it equals the begin/end scan, and after serializing any whole
value it is false again. -/
theorem spec_c9_writing_key_flag {σ : Type} (f : Fmt σ) (theme : Theme) (s0 : σ) :
    (ColorFormatter.new s0).writing_key = false ∧
      (∀ (st : CFState σ) (first : Bool),
        (ColorFormatter.begin_object_key f theme st first).1.writing_key = true) ∧
      (∀ st : CFState σ,
        (ColorFormatter.end_object_key f theme st).1.writing_key = false) ∧
      (∀ (st : CFState σ) (e : Event), (∀ first, e ≠ Event.beginObjectKey first) →
        e ≠ Event.endObjectKey →
        (ColorFormatter.step f theme st e).1.writing_key = st.writing_key) ∧
      (∀ (es : List Event) (st : CFState σ),
        (runEvents f theme st es).1.writing_key = keyFlagFrom st.writing_key es) ∧
      (∀ v : Json,
        (runEvents f theme (ColorFormatter.new s0) (eventsOf v)).1.writing_key = false) := by
  refine ⟨rfl, ?_, ?_, ?_, runEvents_writing_key f theme, ?_⟩
  · intro st first; simp [ColorFormatter.begin_object_key]
  · intro st; simp [ColorFormatter.end_object_key]
  · intro st e h1 h2
    rw [step_writing_key]
    cases e <;> simp [keyFlagFrom]
    · exact absurd rfl (h1 _)
    · exact absurd rfl h2
  · intro v
    rw [runEvents_writing_key]
    simpa [ColorFormatter.new] using keyFlag_eventsOf v

/-- C9 witness: a scalar event leaves the flag unchanged; the run over a
small object ends with the flag false. -/
theorem spec_c9_writing_key_flag_witness :
    (ColorFormatter.step compactFmt Theme.default (ColorFormatter.new ())
        Event.writeNull).1.writing_key = (ColorFormatter.new () : CFState Unit).writing_key ∧
      (runEvents compactFmt Theme.default (ColorFormatter.new ())
        (eventsOf (Json.obj [("k", Json.null)]))).1.writing_key = false :=
  ⟨(spec_c9_writing_key_flag compactFmt Theme.default ()).2.2.2.1 (ColorFormatter.new ())
      Event.writeNull (by decide) (by decide),
   (spec_c9_writing_key_flag compactFmt Theme.default ()).2.2.2.2.2 (Json.obj [("k", Json.null)])⟩

theorem step_no_resetOp {σ : Type} (f : Fmt σ) (theme : Theme) (st : CFState σ) (e : Event) :
    OutItem.resetOp ∉ (ColorFormatter.step f theme st e).2 := by
  cases e <;> by_cases hwk : st.writing_key <;> by_cases hnr : st.need_reset <;>
    simp only [ColorFormatter.step, ColorFormatter.write_null, ColorFormatter.write_bool,
      ColorFormatter.write_i8, ColorFormatter.write_i16, ColorFormatter.write_i32,
      ColorFormatter.write_i64, ColorFormatter.write_u8, ColorFormatter.write_u16,
      ColorFormatter.write_u32, ColorFormatter.write_u64, ColorFormatter.write_f32,
      ColorFormatter.write_f64, ColorFormatter.write_number_str,
      ColorFormatter.begin_string, ColorFormatter.end_string,
      ColorFormatter.write_string_fragment, ColorFormatter.write_char_escape,
      ColorFormatter.begin_array, ColorFormatter.end_array,
      ColorFormatter.begin_array_value, ColorFormatter.end_array_value,
      ColorFormatter.begin_object, ColorFormatter.end_object,
      ColorFormatter.begin_object_key, ColorFormatter.end_object_key,
      ColorFormatter.begin_object_value, ColorFormatter.end_object_value,
      ColorFormatter.write_raw_fragment, with_color, set_color, reset, hwk, hnr] <;>
    (try split_ifs) <;> simp

theorem runEvents_no_resetOp {σ : Type} (f : Fmt σ) (theme : Theme) (st : CFState σ)
    (es : List Event) : OutItem.resetOp ∉ (runEvents f theme st es).2 := by
  induction es generalizing st with
  | nil => simp [runEvents]
  | cons e es ih =>
    simp only [runEvents, List.mem_append, not_or]
    exact ⟨step_no_resetOp f theme st e, ih _⟩

section SpanInfra

theorem Spans_append {rs : ColorSpec} {t1 t2 : List OutItem}
    (h1 : Spans rs t1) (h2 : Spans rs t2) : Spans rs (t1 ++ t2) := by
  induction h1 with
  | nil => simpa using h2
  | plain s h ih => simpa using Spans.plain s ih
  | span c body hc hb h ih =>
    have hs := Spans.span c body hc hb ih
    simpa [List.append_assoc] using hs

theorem Spans_texts {rs : ColorSpec} (bs : List String) {t : List OutItem}
    (h : Spans rs t) : Spans rs (bs.map OutItem.text ++ t) := by
  induction bs with
  | nil => simpa using h
  | cons b bs ih => simpa using Spans.plain b ih

theorem fragEvents_passthrough (s : String) : ∀ e ∈ fragEvents s, e.isPassThrough = true := by
  intro e he
  unfold fragEvents at he
  simp only [List.mem_map] at he
  obtain ⟨c, _, hc⟩ := he
  by_cases h : needsEscape c <;> simp [h] at hc <;> subst hc <;> simp [Event.isPassThrough]

theorem plainRun_fragEvents (s : String) :
    (plainRun compactFmt () (fragEvents s)).2 = (fragBytes s).map OutItem.text := by
  unfold fragEvents fragBytes
  induction s.data with
  | nil => simp [plainRun]
  | cons c cs ih =>
    by_cases h : needsEscape c <;>
      simp [plainRun, plainStep, h, ih, -List.map_map] <;> rfl

theorem compactFmt_begin_string (u : Unit) : compactFmt.begin_string u = ((), "\"") := rfl

theorem compactFmt_end_string (u : Unit) : compactFmt.end_string u = ((), "\"") := rfl

theorem default_reset_eq : Theme.default.reset = ColorSpec.new := rfl

theorem run_string_value (s : String) :
    runEvents compactFmt Theme.default (ColorFormatter.new ()) (stringEvents s) =
      (ColorFormatter.new (),
       OutItem.ctrl Theme.default.string ::
         (("\"" :: fragBytes s ++ ["\""]).map OutItem.text ++ [OutItem.ctrl ColorSpec.new])) := by
  unfold stringEvents
  simp only [runEvents]
  have h1 : ColorFormatter.step compactFmt Theme.default (ColorFormatter.new ())
      Event.beginString =
      (⟨(), false, true⟩, [OutItem.ctrl Theme.default.string, OutItem.text "\""]) := by decide
  rw [h1]
  simp only [List.append_eq]
  rw [runEvents_append, runEvents_passthrough compactFmt Theme.default _
    (fragEvents_passthrough s)]
  simp [plainRun_fragEvents, runEvents, ColorFormatter.step, ColorFormatter.end_string,
    reset, compactFmt_end_string, default_reset_eq, ColorFormatter.new]

theorem run_string_key (s : String) :
    runEvents compactFmt Theme.default ⟨(), true, true⟩ (stringEvents s) =
      (⟨(), true, true⟩, ("\"" :: fragBytes s ++ ["\""]).map OutItem.text) := by
  unfold stringEvents
  simp only [runEvents]
  have h1 : ColorFormatter.step compactFmt Theme.default (⟨(), true, true⟩ : CFState Unit)
      Event.beginString = (⟨(), true, true⟩, [OutItem.text "\""]) := by decide
  rw [h1]
  simp only [List.append_eq]
  rw [runEvents_append, runEvents_passthrough compactFmt Theme.default _
    (fragEvents_passthrough s)]
  simp [plainRun_fragEvents, runEvents, ColorFormatter.step, ColorFormatter.end_string,
    compactFmt_end_string]

end SpanInfra

mutual

theorem spans_eventsOf : ∀ v : Json,
    (runEvents compactFmt Theme.default (ColorFormatter.new ()) (eventsOf v)).1 =
        ColorFormatter.new () ∧
      Spans ColorSpec.new
        (runEvents compactFmt Theme.default (ColorFormatter.new ()) (eventsOf v)).2
  | Json.null => by
    have h : runEvents compactFmt Theme.default (ColorFormatter.new ()) (eventsOf Json.null) =
        (ColorFormatter.new (),
         [OutItem.ctrl Theme.default.null, OutItem.text "null", OutItem.ctrl ColorSpec.new]) := by
      decide
    refine ⟨by rw [h], ?_⟩
    rw [h]
    exact Spans.span Theme.default.null ["null"] rfl (Or.inl rfl) Spans.nil
  | Json.bool b => by
    cases b
    · have h : runEvents compactFmt Theme.default (ColorFormatter.new ())
          (eventsOf (Json.bool false)) =
          (ColorFormatter.new (),
           [OutItem.ctrl Theme.default.bool, OutItem.text "false", OutItem.ctrl ColorSpec.new]) := by
        decide
      refine ⟨by rw [h], ?_⟩
      rw [h]
      exact Spans.span Theme.default.bool ["false"] rfl (Or.inr (Or.inr (Or.inl rfl))) Spans.nil
    · have h : runEvents compactFmt Theme.default (ColorFormatter.new ())
          (eventsOf (Json.bool true)) =
          (ColorFormatter.new (),
           [OutItem.ctrl Theme.default.bool, OutItem.text "true", OutItem.ctrl ColorSpec.new]) := by
        decide
      refine ⟨by rw [h], ?_⟩
      rw [h]
      exact Spans.span Theme.default.bool ["true"] rfl (Or.inr (Or.inl rfl)) Spans.nil
  | Json.num n => by
    have h : runEvents compactFmt Theme.default (ColorFormatter.new ())
        (eventsOf (Json.num n)) =
        (ColorFormatter.new (),
         [OutItem.ctrl Theme.default.number, OutItem.text (toString n),
          OutItem.ctrl ColorSpec.new]) := by
      have hn : Theme.default.number.is_none = false := rfl
      simp [eventsOf, runEvents, ColorFormatter.step, ColorFormatter.write_i64, with_color,
        set_color, reset, hn, default_reset_eq, ColorFormatter.new]
      rfl
    refine ⟨by rw [h], ?_⟩
    rw [h]
    exact Spans.span Theme.default.number [toString n] rfl
      (Or.inr (Or.inr (Or.inr (Or.inl ⟨n, rfl⟩)))) Spans.nil
  | Json.str s => by
    have h := run_string_value s
    refine ⟨?_, ?_⟩
    · simp only [eventsOf]; rw [h]
    · simp only [eventsOf]; rw [h]
      exact Spans.span Theme.default.string ("\"" :: fragBytes s ++ ["\""]) rfl
        (Or.inr (Or.inr (Or.inr (Or.inr ⟨fragBytes s, rfl⟩)))) Spans.nil
  | Json.arr items => by
    obtain ⟨hst, hsp⟩ := spans_arrEvents true items
    simp only [eventsOf, runEvents]
    have h1 : ColorFormatter.step compactFmt Theme.default (ColorFormatter.new ())
        Event.beginArray = (ColorFormatter.new (), [OutItem.text "["]) := by decide
    rw [h1]
    simp only [List.append_eq]
    rw [runEvents_append, hst]
    have h2 : runEvents compactFmt Theme.default (ColorFormatter.new ()) [Event.endArray] =
        (ColorFormatter.new (), [OutItem.text "]"]) := by decide
    rw [h2]
    refine ⟨rfl, ?_⟩
    simpa using Spans.plain "[" (Spans_append hsp (Spans.plain "]" Spans.nil))
  | Json.obj entries => by
    obtain ⟨hst, hsp⟩ := spans_objEvents true entries
    simp only [eventsOf, runEvents]
    have h1 : ColorFormatter.step compactFmt Theme.default (ColorFormatter.new ())
        Event.beginObject = (ColorFormatter.new (), [OutItem.text "\x7b"]) := by decide
    rw [h1]
    simp only [List.append_eq]
    rw [runEvents_append, hst]
    have h2 : runEvents compactFmt Theme.default (ColorFormatter.new ()) [Event.endObject] =
        (ColorFormatter.new (), [OutItem.text "\x7d"]) := by decide
    rw [h2]
    refine ⟨rfl, ?_⟩
    simpa using Spans.plain "\x7b" (Spans_append hsp (Spans.plain "\x7d" Spans.nil))

theorem spans_arrEvents : ∀ (first : Bool) (vs : List Json),
    (runEvents compactFmt Theme.default (ColorFormatter.new ()) (arrEvents first vs)).1 =
        ColorFormatter.new () ∧
      Spans ColorSpec.new
        (runEvents compactFmt Theme.default (ColorFormatter.new ()) (arrEvents first vs)).2
  | _, [] => ⟨rfl, Spans.nil⟩
  | first, v :: vs => by
    obtain ⟨hv1, hv2⟩ := spans_eventsOf v
    obtain ⟨hr1, hr2⟩ := spans_arrEvents false vs
    have h1 : ColorFormatter.step compactFmt Theme.default (ColorFormatter.new ())
        (Event.beginArrayValue first) =
        (ColorFormatter.new (), [OutItem.text (if first then "" else ",")]) := by
      cases first <;> decide
    have h2 : ColorFormatter.step compactFmt Theme.default (ColorFormatter.new ())
        Event.endArrayValue = (ColorFormatter.new (), [OutItem.text ""]) := by decide
    simp only [arrEvents]
    rw [runEvents_cons, h1]
    simp only []
    rw [runEvents_append, hv1, runEvents_cons, h2]
    simp only []
    refine ⟨by rw [hr1], ?_⟩
    simpa using Spans.plain (if first then "" else ",")
      (Spans_append hv2 (Spans.plain "" hr2))

theorem spans_objEvents : ∀ (first : Bool) (kvs : List (String × Json)),
    (runEvents compactFmt Theme.default (ColorFormatter.new ()) (objEvents first kvs)).1 =
        ColorFormatter.new () ∧
      Spans ColorSpec.new
        (runEvents compactFmt Theme.default (ColorFormatter.new ()) (objEvents first kvs)).2
  | _, [] => ⟨rfl, Spans.nil⟩
  | first, (k, v) :: kvs => by
    obtain ⟨hv1, hv2⟩ := spans_eventsOf v
    obtain ⟨hr1, hr2⟩ := spans_objEvents false kvs
    have h1 : ColorFormatter.step compactFmt Theme.default (ColorFormatter.new ())
        (Event.beginObjectKey first) =
        (⟨(), true, true⟩,
         [OutItem.text (if first then "" else ","), OutItem.ctrl Theme.default.object_key]) := by
      cases first <;> decide
    have h2 : ColorFormatter.step compactFmt Theme.default (⟨(), true, true⟩ : CFState Unit)
        Event.endObjectKey =
        (ColorFormatter.new (), [OutItem.ctrl ColorSpec.new, OutItem.text ""]) := by decide
    have h3 : ColorFormatter.step compactFmt Theme.default (ColorFormatter.new ())
        Event.beginObjectValue = (ColorFormatter.new (), [OutItem.text ":"]) := by decide
    have h4 : ColorFormatter.step compactFmt Theme.default (ColorFormatter.new ())
        Event.endObjectValue = (ColorFormatter.new (), [OutItem.text ""]) := by decide
    simp only [objEvents]
    rw [runEvents_cons, h1]
    simp only []
    rw [runEvents_append, run_string_key]
    simp only []
    rw [runEvents_cons, h2]
    simp only []
    rw [runEvents_cons, h3]
    simp only []
    rw [runEvents_append, hv1, runEvents_cons, h4]
    simp only []
    refine ⟨by rw [hr1], ?_⟩
    have hspan := Spans.span Theme.default.object_key
      ("\"" :: fragBytes k ++ ["\""]) rfl
      (Or.inr (Or.inr (Or.inr (Or.inr ⟨fragBytes k, rfl⟩))))
      (Spans.plain "" (Spans.plain ":" (Spans_append hv2 (Spans.plain "" hr2))))
    simpa [List.append_assoc] using Spans.plain (if first then "" else ",") hspan

end

theorem altScan_texts (b : Bool) (bs : List String) (rest : List OutItem) :
    altScan b (bs.map OutItem.text ++ rest) = altScan b rest := by
  induction bs with
  | nil => simp
  | cons x xs ih => simpa [altScan] using ih

theorem altScan_of_spans {t : List OutItem} (h : Spans ColorSpec.new t) :
    altScan false t = true := by
  induction h with
  | nil => rfl
  | plain s h ih => simpa [altScan] using ih
  | span c body hc hb h ih => simp [altScan, hc, altScan_texts, ih]

section FallibleInfra

variable {σ : Type} {ε : Type} {α : Type}

theorem emitList_noFail (items : List OutItem) : ∀ o : List OutItem,
    emitList (⟨Option.none, o⟩ : FWriter ε) items = (⟨Option.none, o ++ items⟩, Option.none) := by
  induction items with
  | nil => intro o; simp [emitList]
  | cons i is ih =>
    intro o
    simp [emitList, emitW, ih (o ++ [i])]

theorem emitList_fail (items : List OutItem) : ∀ (n : Nat) (e : ε) (o : List OutItem),
    emitList ⟨some (n, e), o⟩ items =
      if items.length ≤ n then (⟨some (n - items.length, e), o ++ items⟩, Option.none)
      else (⟨some (0, e), o ++ items.take n⟩, some e) := by
  induction items with
  | nil => intro n e o; simp [emitList]
  | cons i is ih =>
    intro n e o
    cases n with
    | zero => simp [emitList, emitW]
    | succ m =>
      simp [emitList, emitW, ih m e (o ++ [i]), Nat.succ_sub_succ, Nat.succ_le_succ_iff]

theorem emitList_append (w : FWriter ε) (t1 t2 : List OutItem) :
    emitList w (t1 ++ t2) =
      (match emitList w t1 with
       | (w1, some e) => (w1, some e)
       | (w1, Option.none) => emitList w1 t2) := by
  induction t1 generalizing w with
  | nil => simp [emitList]
  | cons i is ih =>
    simp only [List.cons_append, emitList]
    cases h : emitW w i with
    | mk w1 r =>
      cases r with
      | none => simp [ih w1]
      | some e => simp

theorem emitThen_nil (w : FWriter ε) (a : α) : emitThen w [] a = (w, Except.ok a) := by
  simp [emitThen, emitList]

theorem emitThen_cons_ok {w w1 : FWriter ε} {i : OutItem}
    (h : emitW w i = (w1, Option.none)) (items : List OutItem) (a : α) :
    emitThen w (i :: items) a = emitThen w1 items a := by
  simp [emitThen, emitList, h]

theorem emitThen_cons_err {w w1 : FWriter ε} {i : OutItem} {e : ε}
    (h : emitW w i = (w1, some e)) (items : List OutItem) (a : α) :
    emitThen w (i :: items) a = (w1, Except.error e) := by
  simp [emitThen, emitList, h]

theorem delegate_then_eq (w : FWriter ε) (b : String) (a : α) :
    (match delegateE w b with
     | (w1, Except.error err) => (w1, Except.error err)
     | (w1, Except.ok _) => (w1, Except.ok a)) = emitThen w [OutItem.text b] a := by
  simp only [delegateE]
  cases h : emitW w (OutItem.text b) with
  | mk w1 r => cases r <;> simp [emitThen, emitList, h]

theorem delegateStepE_eq (w : FWriter ε) (b : String) (st' : CFState σ) :
    delegateStepE w b st' = emitThen w [OutItem.text b] st' := by
  simp only [delegateStepE]
  exact delegate_then_eq w b st'

theorem with_colorE_eq (w : FWriter ε) (color : ColorSpec) (theme : Theme) (s : σ)
    (write : σ → σ × String) :
    with_colorE w color theme s write =
      emitThen w (with_color color theme s write).2 (with_color color theme s write).1 := by
  by_cases hc : color.is_none
  · have hwc : with_color color theme s write = ((write s).1, [OutItem.text (write s).2]) := by
      simp [with_color, set_color, hc]
    rw [hwc]
    unfold with_colorE set_colorE
    rw [if_pos hc]
    exact delegate_then_eq w (write s).2 (write s).1
  · have hwc : with_color color theme s write =
        ((write s).1,
         [OutItem.ctrl color, OutItem.text (write s).2, OutItem.ctrl theme.reset]) := by
      simp [with_color, set_color, reset, hc]
    rw [hwc]
    unfold with_colorE set_colorE
    rw [if_neg hc]
    cases h1 : emitW w (OutItem.ctrl color) with
    | mk w1 r1 =>
      cases r1 with
      | some e1 => rw [emitThen_cons_err h1]
      | none =>
        rw [emitThen_cons_ok h1]
        simp only [delegateE]
        cases h2 : emitW w1 (OutItem.text (write s).2) with
        | mk w2 r2 =>
          cases r2 with
          | some e2 => rw [emitThen_cons_err h2]
          | none =>
            rw [emitThen_cons_ok h2]
            simp only [resetE]
            cases h3 : emitW w2 (OutItem.ctrl theme.reset) with
            | mk w3 r3 =>
              cases r3 with
              | some e3 => rw [emitThen_cons_err h3]
              | none => rw [emitThen_cons_ok h3, emitThen_nil]

theorem scalarStepE_eq (w : FWriter ε) (color : ColorSpec) (theme : Theme) (st : CFState σ)
    (write : σ → σ × String) :
    scalarStepE w color theme st write =
      emitThen w (with_color color theme st.fstate write).2
        { st with fstate := (with_color color theme st.fstate write).1 } := by
  simp only [scalarStepE]
  rw [with_colorE_eq]
  cases h : emitList w (with_color color theme st.fstate write).2 with
  | mk w1 r => cases r <;> simp [emitThen, h]

theorem stepE_eq (f : Fmt σ) (theme : Theme) (w : FWriter ε) (st : CFState σ) (e : Event) :
    stepE f theme w st e =
      emitThen w (ColorFormatter.step f theme st e).2 (ColorFormatter.step f theme st e).1 := by
  cases e with
  | writeNull =>
    simp only [stepE, ColorFormatter.step, ColorFormatter.write_null]
    exact scalarStepE_eq w theme.null theme st f.write_null
  | writeBool v =>
    simp only [stepE, ColorFormatter.step, ColorFormatter.write_bool]
    exact scalarStepE_eq w theme.bool theme st (fun s => f.write_bool s v)
  | writeI8 v =>
    simp only [stepE, ColorFormatter.step, ColorFormatter.write_i8]
    exact scalarStepE_eq w theme.number theme st (fun s => f.write_i8 s v)
  | writeI16 v =>
    simp only [stepE, ColorFormatter.step, ColorFormatter.write_i16]
    exact scalarStepE_eq w theme.number theme st (fun s => f.write_i16 s v)
  | writeI32 v =>
    simp only [stepE, ColorFormatter.step, ColorFormatter.write_i32]
    exact scalarStepE_eq w theme.number theme st (fun s => f.write_i32 s v)
  | writeI64 v =>
    simp only [stepE, ColorFormatter.step, ColorFormatter.write_i64]
    exact scalarStepE_eq w theme.number theme st (fun s => f.write_i64 s v)
  | writeU8 v =>
    simp only [stepE, ColorFormatter.step, ColorFormatter.write_u8]
    exact scalarStepE_eq w theme.number theme st (fun s => f.write_u8 s v)
  | writeU16 v =>
    simp only [stepE, ColorFormatter.step, ColorFormatter.write_u16]
    exact scalarStepE_eq w theme.number theme st (fun s => f.write_u16 s v)
  | writeU32 v =>
    simp only [stepE, ColorFormatter.step, ColorFormatter.write_u32]
    exact scalarStepE_eq w theme.number theme st (fun s => f.write_u32 s v)
  | writeU64 v =>
    simp only [stepE, ColorFormatter.step, ColorFormatter.write_u64]
    exact scalarStepE_eq w theme.number theme st (fun s => f.write_u64 s v)
  | writeF32 v =>
    simp only [stepE, ColorFormatter.step, ColorFormatter.write_f32]
    exact scalarStepE_eq w theme.number theme st (fun s => f.write_f32 s v)
  | writeF64 v =>
    simp only [stepE, ColorFormatter.step, ColorFormatter.write_f64]
    exact scalarStepE_eq w theme.number theme st (fun s => f.write_f64 s v)
  | writeNumberStr v =>
    simp only [stepE, ColorFormatter.step, ColorFormatter.write_number_str]
    exact scalarStepE_eq w theme.number theme st (fun s => f.write_number_str s v)
  | writeStringFragment frag =>
    simp only [stepE, ColorFormatter.step, ColorFormatter.write_string_fragment]
    exact delegateStepE_eq w _ _
  | writeCharEscape esc =>
    simp only [stepE, ColorFormatter.step, ColorFormatter.write_char_escape]
    exact delegateStepE_eq w _ _
  | beginArray =>
    simp only [stepE, ColorFormatter.step, ColorFormatter.begin_array]
    exact delegateStepE_eq w _ _
  | endArray =>
    simp only [stepE, ColorFormatter.step, ColorFormatter.end_array]
    exact delegateStepE_eq w _ _
  | beginArrayValue first =>
    simp only [stepE, ColorFormatter.step, ColorFormatter.begin_array_value]
    exact delegateStepE_eq w _ _
  | endArrayValue =>
    simp only [stepE, ColorFormatter.step, ColorFormatter.end_array_value]
    exact delegateStepE_eq w _ _
  | beginObject =>
    simp only [stepE, ColorFormatter.step, ColorFormatter.begin_object]
    exact delegateStepE_eq w _ _
  | endObject =>
    simp only [stepE, ColorFormatter.step, ColorFormatter.end_object]
    exact delegateStepE_eq w _ _
  | beginObjectValue =>
    simp only [stepE, ColorFormatter.step, ColorFormatter.begin_object_value]
    exact delegateStepE_eq w _ _
  | endObjectValue =>
    simp only [stepE, ColorFormatter.step, ColorFormatter.end_object_value]
    exact delegateStepE_eq w _ _
  | writeRawFragment frag =>
    simp only [stepE, ColorFormatter.step, ColorFormatter.write_raw_fragment]
    exact delegateStepE_eq w _ _
  | beginString =>
    by_cases hwk : st.writing_key
    · have hib : ColorFormatter.begin_string f theme st =
          ({ st with fstate := (f.begin_string st.fstate).1 },
           [OutItem.text (f.begin_string st.fstate).2]) := by
        simp [ColorFormatter.begin_string, hwk]
      simp only [stepE, ColorFormatter.step, hib]
      rw [if_neg (by simp [hwk])]
      exact delegateStepE_eq w _ _
    · by_cases hs : theme.string.is_none
      · have hib : ColorFormatter.begin_string f theme st =
            ({ st with fstate := (f.begin_string st.fstate).1, need_reset := false },
             [OutItem.text (f.begin_string st.fstate).2]) := by
          simp [ColorFormatter.begin_string, set_color, hwk, hs]
        simp only [stepE, ColorFormatter.step, hib]
        rw [if_pos (by simp [hwk])]
        unfold set_colorE
        rw [if_pos hs]
        exact delegate_then_eq w _ _
      · have hib : ColorFormatter.begin_string f theme st =
            ({ st with fstate := (f.begin_string st.fstate).1, need_reset := true },
             [OutItem.ctrl theme.string, OutItem.text (f.begin_string st.fstate).2]) := by
          simp [ColorFormatter.begin_string, set_color, hwk, hs]
        simp only [stepE, ColorFormatter.step, hib]
        rw [if_pos (by simp [hwk])]
        unfold set_colorE
        rw [if_neg hs]
        cases h1 : emitW w (OutItem.ctrl theme.string) with
        | mk w1 r1 =>
          cases r1 with
          | some e1 => rw [emitThen_cons_err h1]
          | none =>
            rw [emitThen_cons_ok h1]
            exact delegate_then_eq w1 _ _
  | endString =>
    by_cases hwk : st.writing_key
    · have hie : ColorFormatter.end_string f theme st =
          ({ st with fstate := (f.end_string st.fstate).1 },
           [OutItem.text (f.end_string st.fstate).2]) := by
        simp [ColorFormatter.end_string, hwk]
      simp only [stepE, ColorFormatter.step, hie, delegateE]
      cases h1 : emitW w (OutItem.text (f.end_string st.fstate).2) with
      | mk w1 r1 =>
        cases r1 with
        | some e1 => rw [emitThen_cons_err h1]
        | none =>
          rw [emitThen_cons_ok h1, emitThen_nil]
          simp [hwk]
    · by_cases hnr : st.need_reset
      · have hie : ColorFormatter.end_string f theme st =
            ({ st with fstate := (f.end_string st.fstate).1, need_reset := false },
             [OutItem.text (f.end_string st.fstate).2, OutItem.ctrl theme.reset]) := by
          simp [ColorFormatter.end_string, reset, hwk, hnr]
        simp only [stepE, ColorFormatter.step, hie, delegateE]
        cases h1 : emitW w (OutItem.text (f.end_string st.fstate).2) with
        | mk w1 r1 =>
          cases r1 with
          | some e1 => rw [emitThen_cons_err h1]
          | none =>
            rw [emitThen_cons_ok h1]
            cases h2 : emitW w1 (OutItem.ctrl theme.reset) with
            | mk w2 r2 =>
              cases r2 with
              | some e2 => simp [hwk, hnr, resetE, h2, emitThen_cons_err h2]
              | none => simp [hwk, hnr, resetE, h2, emitThen_cons_ok h2, emitThen_nil]
      · have hie : ColorFormatter.end_string f theme st =
            ({ st with fstate := (f.end_string st.fstate).1, need_reset := false },
             [OutItem.text (f.end_string st.fstate).2]) := by
          simp [ColorFormatter.end_string, hwk, hnr]
        simp only [stepE, ColorFormatter.step, hie, delegateE]
        cases h1 : emitW w (OutItem.text (f.end_string st.fstate).2) with
        | mk w1 r1 =>
          cases r1 with
          | some e1 => rw [emitThen_cons_err h1]
          | none =>
            rw [emitThen_cons_ok h1, emitThen_nil]
            simp [hwk, hnr]
  | beginObjectKey first =>
    by_cases hk : theme.object_key.is_none
    · have hib : ColorFormatter.begin_object_key f theme st first =
          ({ st with writing_key := true, fstate := (f.begin_object_key st.fstate first).1,
                     need_reset := false },
           [OutItem.text (f.begin_object_key st.fstate first).2]) := by
        simp [ColorFormatter.begin_object_key, set_color, hk]
      simp only [stepE, ColorFormatter.step, hib, delegateE]
      cases h1 : emitW w (OutItem.text (f.begin_object_key st.fstate first).2) with
      | mk w1 r1 =>
        cases r1 with
        | some e1 => rw [emitThen_cons_err h1]
        | none =>
          rw [emitThen_cons_ok h1, emitThen_nil]
          simp [set_colorE, hk]
    · have hib : ColorFormatter.begin_object_key f theme st first =
          ({ st with writing_key := true, fstate := (f.begin_object_key st.fstate first).1,
                     need_reset := true },
           [OutItem.text (f.begin_object_key st.fstate first).2,
            OutItem.ctrl theme.object_key]) := by
        simp [ColorFormatter.begin_object_key, set_color, hk]
      simp only [stepE, ColorFormatter.step, hib, delegateE]
      cases h1 : emitW w (OutItem.text (f.begin_object_key st.fstate first).2) with
      | mk w1 r1 =>
        cases r1 with
        | some e1 => rw [emitThen_cons_err h1]
        | none =>
          rw [emitThen_cons_ok h1]
          cases h2 : emitW w1 (OutItem.ctrl theme.object_key) with
          | mk w2 r2 =>
            cases r2 with
            | some e2 => simp [set_colorE, hk, h2, emitThen_cons_err h2]
            | none => simp [set_colorE, hk, h2, emitThen_cons_ok h2, emitThen_nil]
  | endObjectKey =>
    by_cases hnr : st.need_reset
    · have hie : ColorFormatter.end_object_key f theme st =
          ({ st with fstate := (f.end_object_key st.fstate).1, writing_key := false,
                     need_reset := false },
           [OutItem.ctrl theme.reset, OutItem.text (f.end_object_key st.fstate).2]) := by
        simp [ColorFormatter.end_object_key, reset, hnr]
      simp only [stepE, ColorFormatter.step, hie]
      rw [if_pos hnr]
      simp only [resetE]
      cases h1 : emitW w (OutItem.ctrl theme.reset) with
      | mk w1 r1 =>
        cases r1 with
        | some e1 => rw [emitThen_cons_err h1]
        | none =>
          rw [emitThen_cons_ok h1]
          exact delegate_then_eq w1 _ _
    · have hie : ColorFormatter.end_object_key f theme st =
          ({ st with fstate := (f.end_object_key st.fstate).1, writing_key := false,
                     need_reset := false },
           [OutItem.text (f.end_object_key st.fstate).2]) := by
        simp [ColorFormatter.end_object_key, hnr]
      simp only [stepE, ColorFormatter.step, hie]
      rw [if_neg (by simp [hnr])]
      exact delegate_then_eq w _ _

theorem runE_eq (f : Fmt σ) (theme : Theme) : ∀ (es : List Event) (w : FWriter ε)
    (st : CFState σ),
    runE f theme w st es =
      emitThen w (runEvents f theme st es).2 (runEvents f theme st es).1 := by
  intro es
  induction es with
  | nil => intro w st; simp [runE, runEvents, emitThen, emitList]
  | cons e es ih =>
    intro w st
    rw [runEvents_cons]
    simp only [runE]
    rw [stepE_eq]
    cases h : emitList w (ColorFormatter.step f theme st e).2 with
    | mk w1 r =>
      cases r with
      | some err => simp [emitThen, h, emitList_append]
      | none =>
        simp [emitThen, h, emitList_append, ih w1 (ColorFormatter.step f theme st e).1]

end FallibleInfra

/-- C8: an I/O failure injected at the n-th write operation (whether it is a
color-control write or a delegate's JSON-byte write) aborts the run exactly
there — the bytes on the stream are the first n items of the full trace — and
the injected error is the call's result, unchanged; with no failure the run
succeeds with exactly the full trace. -/
theorem spec_c8_error_propagation {σ ε : Type} (f : Fmt σ) (theme : Theme) (s0 : σ)
    (events : List Event) (n : Nat) (e : ε) :
    runE f theme (⟨Option.none, []⟩ : FWriter ε) (ColorFormatter.new s0) events =
        ((⟨Option.none, (runEvents f theme (ColorFormatter.new s0) events).2⟩ : FWriter ε),
         Except.ok (runEvents f theme (ColorFormatter.new s0) events).1) ∧
      runE f theme (⟨some (n, e), []⟩ : FWriter ε) (ColorFormatter.new s0) events =
        (if (runEvents f theme (ColorFormatter.new s0) events).2.length ≤ n then
           ((⟨some (n - (runEvents f theme (ColorFormatter.new s0) events).2.length, e),
             (runEvents f theme (ColorFormatter.new s0) events).2⟩ : FWriter ε),
            Except.ok (runEvents f theme (ColorFormatter.new s0) events).1)
         else
           ((⟨some (0, e), (runEvents f theme (ColorFormatter.new s0) events).2.take n⟩ :
              FWriter ε),
            Except.error e)) := by
  constructor
  · rw [runE_eq]
    simp [emitThen, emitList_noFail]
  · rw [runE_eq]
    simp only [emitThen, emitList_fail]
    split_ifs with h <;> simp [h]

/-- C7: the trace of rendering any value with the default theme on a
color-capable stream is a sequence of plain segments and colored spans, each
span a non-empty color-set around exactly one JSON literal (quotes included
for strings and keys) closed by a reset — so a reset always fires before the
next color-set, and the scanner form confirms no two color-sets ever occur
without an intervening reset. -/
theorem spec_c7_span_correctness (v : Json) :
    Spans ColorSpec.new
        (to_writer_with_theme_and_formatter true Theme.default compactFmt () (eventsOf v)) ∧
      altScan false
        (to_writer_with_theme_and_formatter true Theme.default compactFmt () (eventsOf v)) =
        true := by
  have h := (spans_eventsOf v).2
  exact ⟨h, altScan_of_spans h⟩

/-- C10: `Theme::new(spec)` stores the given spec as the reset spec (not an
empty one); `Theme::none()` and `Theme::default()` leave it empty; the
`reset` helper sends the theme's reset spec through the stream's `set_color`,
and the stream's dedicated reset operation never appears in any trace. -/
theorem spec_c10_reset_spec (c : ColorSpec) :
    (Theme.new c).reset = c ∧
      Theme.none.reset = ColorSpec.new ∧
      Theme.default.reset = ColorSpec.new ∧
      (∀ theme : Theme, reset theme = [OutItem.ctrl theme.reset]) ∧
      (∀ (σ : Type) (f : Fmt σ) (theme : Theme) (st : CFState σ) (es : List Event),
        OutItem.resetOp ∉ (runEvents f theme st es).2) :=
  ⟨rfl, rfl, rfl, fun _ => rfl, fun _ f theme st es => runEvents_no_resetOp f theme st es⟩

